import Mathlib

/-!
Verification development for the fabric-x-block-explorer ingestion engine.

The Go source is shallowly embedded:
* `pkg/types/types.go`   — the record types (`ParsedBlockData` and friends);
* `pkg/db/db_writer.go` plus `pkg/db/queries/*.sql` and `pkg/db/schema.sql`
  — the relational store (`DB`), the conflict-aware insert statements, and
  `WriteProcessedBlock`;
* `pkg/parser/parser.go` — `Parse`, `extractPolicies`, `rwSets`;
* `pkg/blockpipeline/backoff.go`  — `Backoff`;
* `pkg/blockpipeline/receiver.go` — `consumeBlocks`;
* the app bootstrap (`app.New`) and the `GetBlockHeight` query — the
  resume-from-tip computation `resumeStartBlock`.

Bytes are `List Nat`; protobuf-encoded payloads are represented by inductive
types whose constructors distinguish "bytes that fail to unmarshal" from the
decoded structure, mirroring speculative `proto.Unmarshal` calls.  The store
is a pure state; each SQL statement is a state transformer, and the writer's
rollback is modelled by discarding the intermediate state on error.
-/

/-- Value of a hexadecimal digit character, as in Go's encoding/hex. -/
def hexDigitValue (c : Char) : Option Nat :=
  if '0' ≤ c ∧ c ≤ '9' then some (c.toNat - '0'.toNat)
  else if 'a' ≤ c ∧ c ≤ 'f' then some (c.toNat - 'a'.toNat + 10)
  else if 'A' ≤ c ∧ c ≤ 'F' then some (c.toNat - 'A'.toNat + 10)
  else none

/-- Decode a hex character list into bytes; `none` on a non-hex character or
an odd length, as Go's `hex.DecodeString` errors in those cases. -/
def hexDecodeList : List Char → Option (List Nat)
  | [] => some []
  | [_] => none
  | c1 :: c2 :: rest =>
    match hexDigitValue c1, hexDigitValue c2, hexDecodeList rest with
    | some hi, some lo, some bs => some ((16 * hi + lo) :: bs)
    | _, _, _ => none

/-- Go `hex.DecodeString` over the embedding's byte representation. -/
def hexDecode (s : String) : Option (List Nat) :=
  hexDecodeList s.data

/-- The standard base64 alphabet used by Go's `base64.StdEncoding`. -/
def base64Alphabet : List Char :=
  "ABCDEFGHIJKLMNOPQRSTUVWXYZabcdefghijklmnopqrstuvwxyz0123456789+/".data

/-- Character for a 6-bit group. -/
def b64Char (n : Nat) : Char :=
  base64Alphabet.getD n 'A'

/-- Go `base64.StdEncoding.EncodeToString` over byte lists. -/
def base64Encode : List Nat → String
  | [] => ""
  | [a] =>
    String.mk [b64Char (a / 4), b64Char (a % 4 * 16), '=', '=']
  | [a, b] =>
    String.mk [b64Char (a / 4), b64Char (a % 4 * 16 + b / 16), b64Char (b % 16 * 4), '=']
  | a :: b :: c :: rest =>
    String.mk [b64Char (a / 4), b64Char (a % 4 * 16 + b / 16),
      b64Char (b % 16 * 4 + c / 64), b64Char (c % 64)] ++ base64Encode rest

/-- parser.go `policyToJSON`: `json.Marshal({"policy_bytes": base64(bytes)})`.
The Go version can never fail (marshalling a string map is total). -/
def policyToJSON (policyBytes : List Nat) : String :=
  "\x7b\"policy_bytes\":\"" ++ base64Encode policyBytes ++ "\"\x7d"

/-- constants.MetaNamespaceID (pkg/constants). -/
def MetaNamespaceID : String := "_meta"

/-- common.BlockMetadataIndex_TRANSACTIONS_FILTER. -/
def TRANSACTIONS_FILTER : Nat := 2

/-- protoblocktx.Status_COMMITTED. -/
def Status_COMMITTED : Nat := 1

/-- common.HeaderType_CONFIG. -/
def HeaderType_CONFIG : Int := 1

/-- common.HeaderType_CONFIG_UPDATE. -/
def HeaderType_CONFIG_UPDATE : Int := 2

/-! ## Record types (pkg/types/types.go) -/

/-- types.WriteRecord.  Go's `Namespace` field is `nsName` here (`namespace`
is a Lean keyword); `Key` is kept as the Go string it is built from. -/
structure WriteRecord where
  nsName : String
  key : String
  blockNum : Nat
  txNum : Nat
  value : List Nat
  txID : String
  validationCode : Int
  isBlindWrite : Bool
  readVersion : Option Nat
deriving Repr, DecidableEq

/-- types.BlockInfo. -/
structure BlockInfo where
  number : Nat
  previousHash : List Nat
  dataHash : List Nat
deriving Repr, DecidableEq

/-- types.TxNamespaceRecord. -/
structure TxNamespaceRecord where
  blockNum : Nat
  txNum : Nat
  txID : String
  nsID : String
  nsVersion : Nat
  validationCode : Int
deriving Repr, DecidableEq

/-- types.ReadRecord. -/
structure ReadRecord where
  blockNum : Nat
  txNum : Nat
  nsID : String
  key : String
  version : Option Nat
  isReadWrite : Bool
deriving Repr, DecidableEq

/-- types.EndorsementRecord.  `identity` is the serialized identity JSON;
`none` models the nil byte slice. -/
structure EndorsementRecord where
  blockNum : Nat
  txNum : Nat
  nsID : String
  endorsement : List Nat
  mspID : Option String
  identity : Option String
deriving Repr, DecidableEq

/-- types.NamespacePolicyRecord; `PolicyJSON` is `json.RawMessage`, kept as
the JSON text. -/
structure NamespacePolicyRecord where
  nsName : String
  version : Nat
  policyJSON : String
deriving Repr, DecidableEq

/-- types.ParsedBlockData. -/
structure ParsedBlockData where
  writes : List WriteRecord
  reads : List ReadRecord
  txNamespaces : List TxNamespaceRecord
  endorsements : List EndorsementRecord
  policies : List NamespacePolicyRecord
deriving Repr, DecidableEq

/-- The Go field `Data` has type `any`; `WriteProcessedBlock` asserts it to
`*types.ParsedBlockData`.  `other` stands for any payload of another type. -/
inductive BlockPayload where
  | parsed (d : ParsedBlockData)
  | other
deriving Repr, DecidableEq

/-- types.ProcessedBlock.  `blockInfo` is a pointer in Go but is always set
by `processBlock`, so it is embedded as a plain field. -/
structure ProcessedBlock where
  number : Nat
  txns : Nat
  data : BlockPayload
  blockInfo : BlockInfo
deriving Repr, DecidableEq

/-! ## The relational store (pkg/db/schema.sql)

Each table is a list of rows in insertion order; `BIGSERIAL` surrogate keys
are drawn from per-table counters.  `trace` is instrumentation only: it
records the kind of every statement issued, in order, and is not a table. -/

/-- blocks table row. -/
structure BlockRow where
  blockNum : Nat
  txCount : Nat
  previousHash : List Nat
  dataHash : List Nat
deriving Repr, DecidableEq

/-- transactions table row. -/
structure TransactionRow where
  id : Nat
  blockNum : Nat
  txNum : Nat
  txID : List Nat
  validationCode : Int
deriving Repr, DecidableEq

/-- tx_namespaces table row. -/
structure TxNamespaceRow where
  id : Nat
  transactionID : Nat
  nsID : String
  nsVersion : Nat
deriving Repr, DecidableEq

/-- tx_reads table row. -/
structure TxReadRow where
  txNamespaceID : Nat
  key : String
  version : Option Nat
  isReadWrite : Bool
deriving Repr, DecidableEq

/-- tx_writes table row. -/
structure TxWriteRow where
  txNamespaceID : Nat
  key : String
  value : List Nat
  isBlindWrite : Bool
  readVersion : Option Nat
deriving Repr, DecidableEq

/-- tx_endorsements table row. -/
structure TxEndorsementRow where
  txNamespaceID : Nat
  endorsement : List Nat
  mspID : Option String
  identity : Option String
deriving Repr, DecidableEq

/-- namespace_policies table row. -/
structure NamespacePolicyRow where
  nsName : String
  version : Nat
  policy : String
deriving Repr, DecidableEq

/-- Statement kinds, for recording the order in which the writer issues its
statements inside the store transaction. -/
inductive Stmt where
  | insertBlock
  | insertTransaction
  | insertTxNamespace
  | insertTxRead
  | insertTxEndorsement
  | upsertNamespacePolicy
  | insertTxWrite
deriving Repr, DecidableEq

/-- The seven-table store. -/
structure DB where
  blocks : List BlockRow
  transactions : List TransactionRow
  txNamespaces : List TxNamespaceRow
  txReads : List TxReadRow
  txWrites : List TxWriteRow
  txEndorsements : List TxEndorsementRow
  namespacePolicies : List NamespacePolicyRow
  nextTransactionID : Nat
  nextTxNamespaceID : Nat
  trace : List Stmt
deriving Repr, DecidableEq

/-- The empty store. -/
def emptyDB : DB :=
  { blocks := [], transactions := [], txNamespaces := [], txReads := []
    txWrites := [], txEndorsements := [], namespacePolicies := []
    nextTransactionID := 1, nextTxNamespaceID := 1, trace := [] }

/-- Row, if any, that an `ON CONFLICT (block_num, tx_num)` clause would hit. -/
def findTx (db : DB) (blockNum txNum : Nat) : Option TransactionRow :=
  db.transactions.find? (fun r => r.blockNum == blockNum && r.txNum == txNum)

/-- Row, if any, that an `ON CONFLICT (transaction_id, ns_id)` clause would hit. -/
def findTxNs (db : DB) (transactionID : Nat) (nsID : String) : Option TxNamespaceRow :=
  db.txNamespaces.find? (fun r => r.transactionID == transactionID && r.nsID == nsID)

/-- Row, if any, that an `ON CONFLICT (namespace, version)` clause would hit. -/
def findPolicy (db : DB) (nsName : String) (version : Nat) : Option NamespacePolicyRow :=
  db.namespacePolicies.find? (fun r => r.nsName == nsName && r.version == version)

/-- queries: InsertBlock — `ON CONFLICT (block_num) DO NOTHING`. -/
def DB.insertBlock (db : DB) (blockNum txCount : Nat)
    (previousHash dataHash : List Nat) : DB :=
  let db := { db with trace := db.trace ++ [Stmt.insertBlock] }
  if db.blocks.any (fun r => r.blockNum == blockNum) then db
  else { db with blocks := db.blocks ++ [⟨blockNum, txCount, previousHash, dataHash⟩] }

/-- queries: InsertTransaction — `ON CONFLICT (block_num, tx_num) DO UPDATE
SET tx_id = EXCLUDED.tx_id RETURNING id`. -/
def DB.insertTransaction (db : DB) (blockNum txNum : Nat) (txID : List Nat)
    (validationCode : Int) : Nat × DB :=
  let db := { db with trace := db.trace ++ [Stmt.insertTransaction] }
  match findTx db blockNum txNum with
  | some r =>
    (r.id, { db with transactions := db.transactions.map (fun t =>
        if t.blockNum == blockNum && t.txNum == txNum then { t with txID := txID } else t) })
  | none =>
    (db.nextTransactionID,
      { db with
        transactions :=
          db.transactions ++ [⟨db.nextTransactionID, blockNum, txNum, txID, validationCode⟩]
        nextTransactionID := db.nextTransactionID + 1 })

/-- queries: InsertTxNamespace — `ON CONFLICT (transaction_id, ns_id) DO
UPDATE SET ns_version = EXCLUDED.ns_version RETURNING id`. -/
def DB.insertTxNamespace (db : DB) (transactionID : Nat) (nsID : String)
    (nsVersion : Nat) : Nat × DB :=
  let db := { db with trace := db.trace ++ [Stmt.insertTxNamespace] }
  match findTxNs db transactionID nsID with
  | some r =>
    (r.id, { db with txNamespaces := db.txNamespaces.map (fun t =>
        if t.transactionID == transactionID && t.nsID == nsID
        then { t with nsVersion := nsVersion } else t) })
  | none =>
    (db.nextTxNamespaceID,
      { db with
        txNamespaces :=
          db.txNamespaces ++ [⟨db.nextTxNamespaceID, transactionID, nsID, nsVersion⟩]
        nextTxNamespaceID := db.nextTxNamespaceID + 1 })

/-- queries: InsertTxRead — unconditional insert. -/
def DB.insertTxRead (db : DB) (txNamespaceID : Nat) (key : String)
    (version : Option Nat) (isReadWrite : Bool) : DB :=
  { db with
    txReads := db.txReads ++ [⟨txNamespaceID, key, version, isReadWrite⟩]
    trace := db.trace ++ [Stmt.insertTxRead] }

/-- queries: InsertTxEndorsement — unconditional insert. -/
def DB.insertTxEndorsement (db : DB) (txNamespaceID : Nat) (endorsement : List Nat)
    (mspID : Option String) (identity : Option String) : DB :=
  { db with
    txEndorsements := db.txEndorsements ++ [⟨txNamespaceID, endorsement, mspID, identity⟩]
    trace := db.trace ++ [Stmt.insertTxEndorsement] }

/-- queries: UpsertNamespacePolicy — `ON CONFLICT (namespace, version) DO
UPDATE SET policy = EXCLUDED.policy`. -/
def DB.upsertNamespacePolicy (db : DB) (nsName : String) (version : Nat)
    (policy : String) : DB :=
  let db := { db with trace := db.trace ++ [Stmt.upsertNamespacePolicy] }
  match findPolicy db nsName version with
  | some _ =>
    { db with namespacePolicies := db.namespacePolicies.map (fun r =>
        if r.nsName == nsName && r.version == version then { r with policy := policy } else r) }
  | none =>
    { db with namespacePolicies := db.namespacePolicies ++ [⟨nsName, version, policy⟩] }

/-- queries: InsertTxWrite — unconditional insert. -/
def DB.insertTxWrite (db : DB) (txNamespaceID : Nat) (key : String) (value : List Nat)
    (isBlindWrite : Bool) (readVersion : Option Nat) : DB :=
  { db with
    txWrites := db.txWrites ++ [⟨txNamespaceID, key, value, isBlindWrite, readVersion⟩]
    trace := db.trace ++ [Stmt.insertTxWrite] }

/-! ## The persistence writer (pkg/db/db_writer.go)

Go builds cache keys with `fmt.Sprintf("%d-%d", …)` and `"%d-%d-%s"`; those
encodings are injective (digit runs contain no dash), so the caches are
embedded as association lists keyed by the tuples themselves.  A Go map
lookup of a missing key yields the zero value, hence the `getD 0` below. -/

/-- Errors of `WriteProcessedBlock`.  `invalidInput` is returned before the
store transaction is begun; `txError` is returned after `Begin`, and the
deferred `Rollback` then discards every statement already issued. -/
inductive WriteErr where
  | invalidInput (msg : String)
  | txError (msg : String)
deriving Repr, DecidableEq

/-- First loop of `WriteProcessedBlock`: insert one transaction row per
unique `(block_num, tx_num)` key, decoding `tx_id` from hex, and populate
`txIDCache`. -/
def insertTransactionsLoop (db : DB) (txIDCache : List ((Nat × Nat) × Nat)) :
    List TxNamespaceRecord → Except String (DB × List ((Nat × Nat) × Nat))
  | [] => Except.ok (db, txIDCache)
  | txNs :: rest =>
    match txIDCache.lookup (txNs.blockNum, txNs.txNum) with
    | some _ => insertTransactionsLoop db txIDCache rest
    | none =>
      match hexDecode txNs.txID with
      | none => Except.error ("failed to decode tx_id " ++ txNs.txID)
      | some txIDBytes =>
        let p := db.insertTransaction txNs.blockNum txNs.txNum txIDBytes txNs.validationCode
        insertTransactionsLoop p.2 (((txNs.blockNum, txNs.txNum), p.1) :: txIDCache) rest

/-- Second loop: insert one tx_namespaces row per record, resolving the
transaction id from `txIDCache`, and populate `txNsCache`. -/
def insertTxNamespacesLoop (db : DB) (txIDCache : List ((Nat × Nat) × Nat))
    (txNsCache : List ((Nat × Nat × String) × Nat)) :
    List TxNamespaceRecord → DB × List ((Nat × Nat × String) × Nat)
  | [] => (db, txNsCache)
  | txNs :: rest =>
    let txID := (txIDCache.lookup (txNs.blockNum, txNs.txNum)).getD 0
    let p := db.insertTxNamespace txID txNs.nsID txNs.nsVersion
    insertTxNamespacesLoop p.2 txIDCache
      (((txNs.blockNum, txNs.txNum, txNs.nsID), p.1) :: txNsCache) rest

/-- Third loop: insert every read, resolving `tx_namespace_id` from the cache. -/
def insertReadsLoop (db : DB) (txNsCache : List ((Nat × Nat × String) × Nat)) :
    List ReadRecord → DB
  | [] => db
  | r :: rest =>
    let txNsID := (txNsCache.lookup (r.blockNum, r.txNum, r.nsID)).getD 0
    insertReadsLoop (db.insertTxRead txNsID r.key r.version r.isReadWrite) txNsCache rest

/-- Fourth loop: insert every endorsement. -/
def insertEndorsementsLoop (db : DB) (txNsCache : List ((Nat × Nat × String) × Nat)) :
    List EndorsementRecord → DB
  | [] => db
  | e :: rest =>
    let txNsID := (txNsCache.lookup (e.blockNum, e.txNum, e.nsID)).getD 0
    insertEndorsementsLoop
      (db.insertTxEndorsement txNsID e.endorsement e.mspID e.identity) txNsCache rest

/-- Fifth loop: upsert every policy whose JSON payload is non-empty. -/
def upsertPoliciesLoop (db : DB) : List NamespacePolicyRecord → DB
  | [] => db
  | p :: rest =>
    if p.policyJSON.length == 0 then upsertPoliciesLoop db rest
    else upsertPoliciesLoop (db.upsertNamespacePolicy p.nsName p.version p.policyJSON) rest

/-- Sixth loop: insert every write. -/
def insertWritesLoop (db : DB) (txNsCache : List ((Nat × Nat × String) × Nat)) :
    List WriteRecord → DB
  | [] => db
  | w :: rest =>
    let txNsID := (txNsCache.lookup (w.blockNum, w.txNum, w.nsName)).getD 0
    insertWritesLoop
      (db.insertTxWrite txNsID w.key w.value w.isBlindWrite w.readVersion) txNsCache rest

/-- db_writer.go `WriteProcessedBlock`.  The nil and type-assertion checks
happen before `Begin`; everything after runs inside one store transaction,
so an error result means the statements already applied are discarded by the
caller (`runWrite`). -/
def WriteProcessedBlock (db : DB) (pb : Option ProcessedBlock) : Except WriteErr DB :=
  match pb with
  | none => Except.error (WriteErr.invalidInput "processed block is nil")
  | some pb =>
    match pb.data with
    | BlockPayload.other =>
      Except.error (WriteErr.invalidInput "processed block Data is not *types.ParsedBlockData")
    | BlockPayload.parsed parsedData =>
      let db := db.insertBlock pb.blockInfo.number pb.txns
        pb.blockInfo.previousHash pb.blockInfo.dataHash
      match insertTransactionsLoop db [] parsedData.txNamespaces with
      | Except.error msg => Except.error (WriteErr.txError msg)
      | Except.ok (db, txIDCache) =>
        let p := insertTxNamespacesLoop db txIDCache [] parsedData.txNamespaces
        let db := insertReadsLoop p.1 p.2 parsedData.reads
        let db := insertEndorsementsLoop db p.2 parsedData.endorsements
        let db := upsertPoliciesLoop db parsedData.policies
        let db := insertWritesLoop db p.2 parsedData.writes
        Except.ok db

/-- Commit-on-success, rollback-on-error: the store state after one call to
the writer. -/
def runWrite (db : DB) (pb : Option ProcessedBlock) : DB :=
  match WriteProcessedBlock db pb with
  | Except.ok db' => db'
  | Except.error _ => db

/-! ## Decoded protobuf structures (inputs of pkg/parser/parser.go)

A field holding protobuf-encoded bytes is embedded as the decoded value it
may yield: `bad` (or `none`) where `proto.Unmarshal` would fail.  `pl.Data`
is probed speculatively against three schemas, so it carries one optional
view per schema. -/

/-- msp.SerializedIdentity. -/
structure IdentityView where
  mspid : String
  idBytes : List Nat
deriving Repr, DecidableEq

/-- peer.Endorsement; `endorser` is `none` when the endorser bytes fail to
unmarshal as a SerializedIdentity. -/
structure EndorsementView where
  endorser : Option IdentityView
deriving Repr, DecidableEq

/-- One entry of `tx.Signatures`: the raw bytes, together with the view
obtained when they unmarshal as a peer.Endorsement (`none` on failure). -/
structure SigBytes where
  raw : List Nat
  view : Option EndorsementView
deriving Repr, DecidableEq

/-- protoblocktx.Read. -/
structure ProtoRead where
  key : String
  version : Option Nat
deriving Repr, DecidableEq

/-- protoblocktx.ReadWrite. -/
structure ProtoReadWrite where
  key : String
  value : List Nat
  version : Option Nat
deriving Repr, DecidableEq

/-- protoblocktx.Write. -/
structure ProtoWrite where
  key : String
  value : List Nat
deriving Repr, DecidableEq

/-- protoblocktx.TxNamespace. -/
structure TxNamespace where
  nsId : String
  nsVersion : Nat
  readsOnly : List ProtoRead
  readWrites : List ProtoReadWrite
  blindWrites : List ProtoWrite
deriving Repr, DecidableEq

/-- protoblocktx.Tx. -/
structure Tx where
  namespaces : List TxNamespace
  signatures : List SigBytes
deriving Repr, DecidableEq

/-- One entry of protoblocktx.NamespacePolicies. -/
structure PolicyData where
  nsName : String
  version : Nat
  policy : List Nat
deriving Repr, DecidableEq

/-- protoblocktx.NamespacePolicies. -/
structure NamespacePolicies where
  policies : List PolicyData
deriving Repr, DecidableEq

/-- protoblocktx.ConfigTransaction. -/
structure ConfigTransaction where
  envelope : List Nat
  version : Nat
deriving Repr, DecidableEq

/-- The three speculative views of the `pl.Data` bytes. -/
structure PayloadData where
  asPolicies : Option NamespacePolicies
  asConfigTx : Option ConfigTransaction
  asTx : Option Tx
deriving Repr, DecidableEq

/-- common.ChannelHeader bytes: `bad` when they fail to unmarshal. -/
inductive ChanHdrBytes where
  | bad
  | good (type : Int) (txId : String)
deriving Repr, DecidableEq

/-- common.Payload.  `header = none` models `pl.Header == nil`;
`header = some none` models `pl.Header.ChannelHeader == nil` (nil bytes
unmarshal to the zero ChannelHeader). -/
structure PayloadView where
  header : Option (Option ChanHdrBytes)
  data : PayloadData
deriving Repr, DecidableEq

/-- The `env.Payload` bytes. -/
inductive PayloadBytes where
  | bad
  | good (pl : PayloadView)
deriving Repr, DecidableEq

/-- common.Envelope. -/
structure Envelope where
  payload : PayloadBytes
deriving Repr, DecidableEq

/-- One entry of `b.Data.Data`. -/
inductive EnvelopeBytes where
  | bad
  | good (env : Envelope)
deriving Repr, DecidableEq

/-- common.BlockHeader. -/
structure BlockHeader where
  number : Nat
  previousHash : List Nat
  dataHash : List Nat
deriving Repr, DecidableEq

/-- common.BlockData. -/
structure BlockData where
  data : List EnvelopeBytes
deriving Repr, DecidableEq

/-- common.Block.  All three fields are pointers in Go, hence `Option`; the
metadata pointer and its inner vector are collapsed into one option. -/
structure Block where
  header : Option BlockHeader
  data : Option BlockData
  metadata : Option (List (List Nat))
deriving Repr, DecidableEq

/-! ## The decoder (pkg/parser/parser.go) -/

/-- parser.go `endorsementToIdentityJSON`: unmarshal the endorsement, then
its endorser as a SerializedIdentity; on success return the mspid and the
identity JSON (Go's `json.Marshal` emits map keys sorted). -/
def endorsementToIdentityJSON (sig : SigBytes) : Option (String × String) :=
  match sig.view with
  | none => none
  | some ev =>
    match ev.endorser with
    | none => none
    | some sid =>
      some (sid.mspid,
        "\x7b\"id_bytes\":\"" ++ base64Encode sid.idBytes
          ++ "\",\"mspid\":\"" ++ sid.mspid ++ "\"\x7d")

/-- Loop of `extractPolicies` over `policies.Policies`: skip empty policy
bytes, substitute the meta namespace for an empty name, wrap the bytes. -/
def buildPolicyItems : List PolicyData → List NamespacePolicyRecord
  | [] => []
  | pd :: rest =>
    if pd.policy.isEmpty then buildPolicyItems rest
    else
      let ns := if pd.nsName = "" then MetaNamespaceID else pd.nsName
      { nsName := ns, version := pd.version, policyJSON := policyToJSON pd.policy }
        :: buildPolicyItems rest

/-- parser.go `extractPolicies`.  `some items` corresponds to the Go result
`(items, true)`; every other path returns `(nil, false)`. -/
def extractPolicies (env : Envelope) : Option (List NamespacePolicyRecord) :=
  match env.payload with
  | PayloadBytes.bad => none
  | PayloadBytes.good pl =>
    match pl.header with
    | none => none
    | some none => none
    | some (some ChanHdrBytes.bad) => none
    | some (some (ChanHdrBytes.good ty _)) =>
      if ty ≠ HeaderType_CONFIG ∧ ty ≠ HeaderType_CONFIG_UPDATE then none
      else
        let viaPolicies : Option (List NamespacePolicyRecord) :=
          match pl.data.asPolicies with
          | some pols =>
            if 0 < pols.policies.length then
              let items := buildPolicyItems pols.policies
              if 0 < items.length then some items else none
            else none
          | none => none
        match viaPolicies with
        | some items => some items
        | none =>
          match pl.data.asConfigTx with
          | some ctxn =>
            if 0 < ctxn.envelope.length then
              some [{ nsName := MetaNamespaceID, version := ctxn.version,
                      policyJSON := policyToJSON ctxn.envelope }]
            else none
          | none => none

/-- parser.go `nsData`: a TxNamespace with transaction metadata. -/
structure NsData where
  ns : TxNamespace
  txID : String
  endorsement : SigBytes
deriving Repr, DecidableEq

/-- Outcome of `rwSets`.  `panicked` models the nil-pointer dereference of
`pl.Header.ChannelHeader` when `pl.Header` is nil (rwSets has no nil check,
unlike extractPolicies). -/
inductive RwOut where
  | panicked
  | error (msg : String)
  | ok (l : List NsData)
deriving Repr, DecidableEq

/-- Tail of `rwSets` after the channel header yields a txID (nil header
bytes unmarshal to the zero ChannelHeader, whose TxId is `""`): unmarshal
`pl.Data` as a Tx and pair each namespace with its signature, if any. -/
def rwSetsBody (d : PayloadData) (txID : String) : RwOut :=
  match d.asTx with
  | none => RwOut.error "transaction"
  | some tx =>
    RwOut.ok (tx.namespaces.enum.map (fun p =>
      { ns := p.2, txID := txID
        endorsement :=
          if p.1 < tx.signatures.length
          then tx.signatures.getD p.1 { raw := [], view := none }
          else { raw := [], view := none } }))

/-- parser.go `rwSets`. -/
def rwSets (env : Envelope) : RwOut :=
  match env.payload with
  | PayloadBytes.bad => RwOut.error "payload"
  | PayloadBytes.good pl =>
    match pl.header with
    | none => RwOut.panicked
    | some chBytes =>
      match chBytes with
      | some ChanHdrBytes.bad => RwOut.error "channel header"
      | some (ChanHdrBytes.good _ txId) => rwSetsBody pl.data txId
      | none => rwSetsBody pl.data ""

/-- The empty accumulator Parse starts from. -/
def emptyParsed : ParsedBlockData :=
  { writes := [], reads := [], txNamespaces := [], endorsements := [], policies := [] }

/-- Body of Parse's `for _, nsData := range nsList` loop: emit the
TxNamespaceRecord, the endorsement (if present), then the reads and writes
of one namespace, appending to the accumulated `ParsedBlockData`. -/
def emitNamespace (blockNumber txNum validationCode : Nat) (nd : NsData)
    (acc : ParsedBlockData) : ParsedBlockData :=
  let ns := nd.ns
  let acc := { acc with txNamespaces := acc.txNamespaces ++ [{
    blockNum := blockNumber, txNum := txNum, txID := nd.txID
    nsID := ns.nsId, nsVersion := ns.nsVersion
    validationCode := (validationCode : Int) }] }
  let acc :=
    if 0 < nd.endorsement.raw.length then
      match endorsementToIdentityJSON nd.endorsement with
      | none =>
        { acc with endorsements := acc.endorsements ++ [{
            blockNum := blockNumber, txNum := txNum, nsID := ns.nsId
            endorsement := nd.endorsement.raw, mspID := none, identity := none }] }
      | some pr =>
        { acc with endorsements := acc.endorsements ++ [{
            blockNum := blockNumber, txNum := txNum, nsID := ns.nsId
            endorsement := nd.endorsement.raw
            mspID := some pr.1, identity := some pr.2 }] }
    else acc
  let acc := ns.readsOnly.foldl (fun (a : ParsedBlockData) ro =>
    { a with reads := a.reads ++ [{
        blockNum := blockNumber, txNum := txNum, nsID := ns.nsId, key := ro.key
        version := match ro.version with
          | some v => if 0 < v then some v else none
          | none => none
        isReadWrite := false }] }) acc
  let acc := ns.readWrites.foldl (fun (a : ParsedBlockData) rw =>
    let a : ParsedBlockData := { a with reads := a.reads ++ [{
        blockNum := blockNumber, txNum := txNum, nsID := ns.nsId, key := rw.key
        version := match rw.version with
          | some v => if 0 < v then some v else none
          | none => none
        isReadWrite := true }] }
    ({ a with writes := a.writes ++ [{
        nsName := ns.nsId, key := rw.key, blockNum := blockNumber, txNum := txNum
        value := rw.value, txID := nd.txID
        validationCode := (validationCode : Int)
        isBlindWrite := false, readVersion := rw.version }] } : ParsedBlockData)) acc
  let acc := ns.blindWrites.foldl (fun (a : ParsedBlockData) bw =>
    { a with writes := a.writes ++ [{
        nsName := ns.nsId, key := bw.key, blockNum := blockNumber, txNum := txNum
        value := bw.value, txID := nd.txID
        validationCode := (validationCode : Int)
        isBlindWrite := true, readVersion := none }] }) acc
  acc

/-- Fold `emitNamespace` over the namespaces rwSets extracted. -/
def emitNamespaces (blockNumber txNum validationCode : Nat) (l : List NsData)
    (acc : ParsedBlockData) : ParsedBlockData :=
  l.foldl (fun a nd => emitNamespace blockNumber txNum validationCode nd a) acc

/-- The standard (non-policy) decoding path of one transaction: run
`rwSets`; on error log and skip, on success emit every namespace.  `none`
propagates the nil-header panic. -/
def standardTxStep (blockNumber txNum validationCode : Nat) (env : Envelope)
    (acc : ParsedBlockData) : Option ParsedBlockData :=
  match rwSets env with
  | RwOut.panicked => none
  | RwOut.error _ => some acc
  | RwOut.ok nsList => some (emitNamespaces blockNumber txNum validationCode nsList acc)

/-- One decoded transaction: policy extraction first, otherwise the
standard path. -/
def parseTxStep (blockNumber txNum validationCode : Nat) (env : Envelope)
    (acc : ParsedBlockData) : Option ParsedBlockData :=
  match extractPolicies env with
  | some items => some { acc with policies := acc.policies ++ items }
  | none => standardTxStep blockNumber txNum validationCode env acc

/-- One entry of the `for txNum, envBytes := range b.Data.Data` loop:
filter-length and validation-code skips, then envelope unmarshal (log and
skip on failure), then `parseTxStep`. -/
def parseTxEntry (blockNumber : Nat) (txFilter : List Nat) (txNum : Nat)
    (envBytes : EnvelopeBytes) (acc : ParsedBlockData) : Option ParsedBlockData :=
  if txFilter.length ≤ txNum then some acc
  else
    let validationCode := txFilter.getD txNum 0
    if validationCode ≠ Status_COMMITTED then some acc
    else
      match envBytes with
      | EnvelopeBytes.bad => some acc
      | EnvelopeBytes.good env => parseTxStep blockNumber txNum validationCode env acc

/-- The transaction loop of Parse. -/
def parseTxs (blockNumber : Nat) (txFilter : List Nat) (acc : ParsedBlockData) :
    List (Nat × EnvelopeBytes) → Option ParsedBlockData
  | [] => some acc
  | (txNum, envBytes) :: rest =>
    match parseTxEntry blockNumber txFilter txNum envBytes acc with
    | none => none
    | some acc' => parseTxs blockNumber txFilter acc' rest

/-- Result of Parse: the Go `(data, info, err)` triple, with `panicked` for
the two nil-pointer dereferences Parse can run into (`b.Data` nil, or a
payload whose Header is nil reaching `rwSets`). -/
inductive ParseResult where
  | ok (d : ParsedBlockData) (info : BlockInfo)
  | error (d : ParsedBlockData) (info : Option BlockInfo) (msg : String)
  | panicked
deriving Repr, DecidableEq

/-- parser.go `Parse`. -/
def Parse (b : Block) : ParseResult :=
  match b.header with
  | none => ParseResult.error emptyParsed none "block header missing"
  | some header =>
    let blockInfo : BlockInfo :=
      { number := header.number, previousHash := header.previousHash
        dataHash := header.dataHash }
    match b.metadata with
    | none =>
      ParseResult.error emptyParsed (some blockInfo) "block metadata missing TRANSACTIONS_FILTER"
    | some md =>
      if md.length ≤ TRANSACTIONS_FILTER then
        ParseResult.error emptyParsed (some blockInfo) "block metadata missing TRANSACTIONS_FILTER"
      else
        let txFilter := md.getD TRANSACTIONS_FILTER []
        match b.data with
        | none => ParseResult.panicked
        | some bd =>
          match parseTxs header.number txFilter emptyParsed bd.data.enum with
          | none => ParseResult.panicked
          | some d => ParseResult.ok d blockInfo

/-! ## Backoff (pkg/blockpipeline/backoff.go)

Durations are nanoseconds, embedded as exact rationals (Go computes in
float64 and truncates to integer nanoseconds; every bound below is an
integer, so truncation never moves a value across a bound).  The value of
`rand.Float64()` — a number in `[0, 1)` — is passed in explicitly. -/

/-- blockpipeline.Backoff. -/
structure Backoff where
  base : ℚ
  max : ℚ
  attempts : ℕ
deriving Repr, DecidableEq

/-- blockpipeline.NewBackoff: 500 ms initial, 30 s cap. -/
def NewBackoff : Backoff :=
  { base := 500000000, max := 30000000000, attempts := 0 }

/-- Backoff.Reset. -/
def Backoff.Reset (b : Backoff) : Backoff :=
  { b with attempts := 0 }

/-- Backoff.Next, with `r` the value drawn from `rand.Float64()`.  Returns
the delay and the advanced state. -/
def Backoff.Next (b : Backoff) (r : ℚ) : ℚ × Backoff :=
  let e0 := b.base * 2 ^ b.attempts
  let e := if e0 > b.max then b.max else e0
  let jitter := r * (3 / 10) + 17 / 20
  (e * jitter, { b with attempts := b.attempts + 1 })

/-- Iterate `Next` over a list of random draws, keeping only the state. -/
def iterNext (b : Backoff) : List ℚ → Backoff
  | [] => b
  | r :: rs => iterNext (b.Next r).2 rs

/-! ## Receiver (pkg/blockpipeline/receiver.go)

`consumeBlocks` is embedded over the finite sequence of items delivered on
one per-attempt channel before it closes; `none` entries are nil blocks.
The `ctx.Done()` select arms only truncate a run and are elided. -/

/-- receiver.go `consumeBlocks`: the forwarded blocks in order, and the
error returned when the channel closes. -/
def consumeBlocks : List (Option Block) → List Block × String
  | [] => ([], "sidecar block channel closed")
  | none :: rest => consumeBlocks rest
  | some blk :: rest =>
    let r := consumeBlocks rest
    (blk :: r.1, r.2)

/-! ## Resume-from-tip (app.New and the GetBlockHeight query) -/

/-- queries: GetBlockHeight — `SELECT COALESCE(MAX(block_num), 0)`. -/
def GetBlockHeight (db : DB) : Int :=
  db.blocks.foldl (fun acc r => Max.max acc (r.blockNum : Int)) 0

/-- app.New: `if currentBlockHeight > 0 { cfg.Sidecar.StartBlk =
uint64(currentBlockHeight) + 1 }`; otherwise the configured start block is
left in place.  The result is the first block number requested upstream. -/
def resumeStartBlock (db : DB) (cfgStartBlk : Nat) : Nat :=
  let h := GetBlockHeight db
  if 0 < h then h.toNat + 1 else cfgStartBlk

/-- The tip of a persisted set: the maximum persisted block number (0 when
empty), in the spec's words. -/
def tip (db : DB) : Nat :=
  db.blocks.foldl (fun acc r => Max.max acc r.blockNum) 0

/-! ## Theorems -/

/-- C9: the Receiver's consume loop forwards to the output queue exactly the
subsequence of non-null blocks of the delivered sequence, in order; null
blocks are dropped silently, producing no output and no error. -/
theorem consumeBlocks_forwards_nonnull :
    (∀ l : List (Option Block), (consumeBlocks l).1 = l.filterMap id)
    ∧ (∀ rest : List (Option Block), consumeBlocks (none :: rest) = consumeBlocks rest) := by
  constructor
  · intro l
    induction l with
    | nil => rfl
    | cons hd tl ih =>
      cases hd with
      | none => simpa [consumeBlocks] using ih
      | some blk => simpa [consumeBlocks] using ih
  · intro rest
    rfl

/-- Fields of the backoff state after a sequence of draws: the base and cap
never change, and the attempt counter counts the calls. -/
theorem iterNext_fields (rs : List ℚ) : ∀ b : Backoff,
    (iterNext b rs).base = b.base ∧ (iterNext b rs).max = b.max ∧
    (iterNext b rs).attempts = b.attempts + rs.length := by
  induction rs with
  | nil => intro b; simp [iterNext]
  | cons r rs ih =>
    intro b
    have h := ih (b.Next r).2
    simp only [iterNext, Backoff.Next] at h ⊢
    refine ⟨h.1, h.2.1, ?_⟩
    rw [h.2.2, List.length_cons]
    omega

/-- Single-step bound for Next on an arbitrary backoff state. -/
theorem next_bounds (b : Backoff) (r : ℚ) (hbase : 0 < b.base) (hmax : 0 < b.max)
    (h0 : 0 ≤ r) (h1 : r < 1) :
    min (b.base * 2 ^ b.attempts) b.max * (17 / 20) ≤ (b.Next r).1
    ∧ (b.Next r).1 ≤ min (b.base * 2 ^ b.attempts) b.max * (23 / 20) := by
  have he : (if b.base * 2 ^ b.attempts > b.max then b.max else b.base * 2 ^ b.attempts)
      = min (b.base * 2 ^ b.attempts) b.max := by
    rcases le_or_lt (b.base * 2 ^ b.attempts) b.max with h | h
    · simp [min_eq_left h, if_neg (not_lt.mpr h)]
    · simp [min_eq_right h.le, if_pos h]
  have hcap : 0 ≤ min (b.base * 2 ^ b.attempts) b.max := by
    have : (0 : ℚ) < b.base * 2 ^ b.attempts := by positivity
    exact le_min this.le hmax.le
  have hjlo : (17 / 20 : ℚ) ≤ r * (3 / 10) + 17 / 20 := by nlinarith
  have hjhi : r * (3 / 10) + 17 / 20 ≤ 23 / 20 := by nlinarith
  constructor
  · show min _ _ * _ ≤ _
    simp only [Backoff.Next, he]
    exact mul_le_mul_of_nonneg_left hjlo hcap
  · show _ ≤ min _ _ * _
    simp only [Backoff.Next, he]
    exact mul_le_mul_of_nonneg_left hjhi hcap

/-- C8: the k-th Next after construction (k draws already consumed) returns
a delay in `[min(initial·2^k, max)·0.85, min(initial·2^k, max)·1.15]`, for
every value of the random draw; after Reset the next delay is back in the
k = 0 range `[initial·0.85, initial·1.15]`. -/
theorem backoff_progression (rs : List ℚ) (r : ℚ) (h0 : 0 ≤ r) (h1 : r < 1) :
    (min (NewBackoff.base * 2 ^ rs.length) NewBackoff.max * (17 / 20)
        ≤ ((iterNext NewBackoff rs).Next r).1
      ∧ ((iterNext NewBackoff rs).Next r).1
        ≤ min (NewBackoff.base * 2 ^ rs.length) NewBackoff.max * (23 / 20))
    ∧ (NewBackoff.base * (17 / 20) ≤ (((iterNext NewBackoff rs).Reset).Next r).1
      ∧ (((iterNext NewBackoff rs).Reset).Next r).1 ≤ NewBackoff.base * (23 / 20)) := by
  obtain ⟨hb, hm, ha⟩ := iterNext_fields rs NewBackoff
  have hbase : (0 : ℚ) < (iterNext NewBackoff rs).base := by
    rw [hb]; norm_num [NewBackoff]
  have hmax : (0 : ℚ) < (iterNext NewBackoff rs).max := by
    rw [hm]; norm_num [NewBackoff]
  constructor
  · have h := next_bounds (iterNext NewBackoff rs) r hbase hmax h0 h1
    rw [hb, hm, ha] at h
    simpa [NewBackoff] using h
  · have hbase' : (0 : ℚ) < ((iterNext NewBackoff rs).Reset).base := by
      simpa [Backoff.Reset] using hbase
    have hmax' : (0 : ℚ) < ((iterNext NewBackoff rs).Reset).max := by
      simpa [Backoff.Reset] using hmax
    have h := next_bounds ((iterNext NewBackoff rs).Reset) r hbase' hmax' h0 h1
    have hrb : ((iterNext NewBackoff rs).Reset).base = NewBackoff.base := by
      simp [Backoff.Reset, hb]
    have hrm : ((iterNext NewBackoff rs).Reset).max = NewBackoff.max := by
      simp [Backoff.Reset, hm]
    have hra : ((iterNext NewBackoff rs).Reset).attempts = 0 := by
      simp [Backoff.Reset]
    rw [hrb, hrm, hra, pow_zero, mul_one] at h
    have hle : NewBackoff.base ≤ NewBackoff.max := by norm_num [NewBackoff]
    rw [min_eq_left hle] at h
    exact h

/-- Witness for C8 at k = 0, r = 0. -/
theorem backoff_progression_witness :
    (0 : ℚ) ≤ 0 ∧ (0 : ℚ) < 1
    ∧ min (NewBackoff.base * 2 ^ ([] : List ℚ).length) NewBackoff.max * (17 / 20)
        ≤ ((iterNext NewBackoff []).Next 0).1 :=
  ⟨le_refl 0, by norm_num,
    ((backoff_progression [] 0 (le_refl 0) (by norm_num)).1).1⟩

/-- The SQL height and the spec's tip agree: `COALESCE(MAX(block_num), 0)`
computes the tip as an integer. -/
theorem getBlockHeight_eq_tip (db : DB) : GetBlockHeight db = (tip db : Int) := by
  unfold GetBlockHeight tip
  generalize db.blocks = l
  suffices h : ∀ (a : Nat),
      l.foldl (fun acc r => Max.max acc (r.blockNum : Int)) (a : Int)
        = ((l.foldl (fun acc r => Max.max acc r.blockNum) a : Nat) : Int) by
    simpa using h 0
  induction l with
  | nil => intro a; simp
  | cons hd tl ih =>
    intro a
    simp only [List.foldl_cons]
    rw [← Nat.cast_max, ih]

/-- C3 (amended): when the persisted tip T is positive the first delivery
request is T + 1; when the tip is 0 — the store is empty, or only block 0
is persisted — the request is the configured start block. -/
theorem resume_start_correct (db : DB) (cfgStartBlk : Nat) :
    (0 < tip db → resumeStartBlock db cfgStartBlk = tip db + 1)
    ∧ (tip db = 0 → resumeStartBlock db cfgStartBlk = cfgStartBlk)
    ∧ (db.blocks = [] → resumeStartBlock db cfgStartBlk = cfgStartBlk) := by
  have hh := getBlockHeight_eq_tip db
  refine ⟨?_, ?_, ?_⟩
  · intro hpos
    unfold resumeStartBlock
    rw [hh]
    have : (0 : Int) < (tip db : Int) := by exact_mod_cast hpos
    simp [this, Int.toNat_natCast]
  · intro h0
    unfold resumeStartBlock
    rw [hh, h0]
    simp
  · intro hnil
    unfold resumeStartBlock
    rw [hh]
    have : tip db = 0 := by unfold tip; rw [hnil]; rfl
    rw [this]
    simp

/-- Witness for C3's amended theorem: a store whose tip is 5 resumes at 6,
and the empty store resumes at the configured start block. -/
theorem resume_start_correct_witness :
    (0 < tip { emptyDB with blocks := [⟨5, 0, [], []⟩] }
      ∧ resumeStartBlock { emptyDB with blocks := [⟨5, 0, [], []⟩] } 0
          = tip { emptyDB with blocks := [⟨5, 0, [], []⟩] } + 1)
    ∧ (emptyDB.blocks = [] ∧ resumeStartBlock emptyDB 3 = 3) :=
  ⟨⟨by decide, (resume_start_correct { emptyDB with blocks := [⟨5, 0, [], []⟩] } 0).1 (by decide)⟩,
   ⟨rfl, (resume_start_correct emptyDB 3).2.2 rfl⟩⟩

/-- C3 counterexample: a non-empty persisted set whose tip T is 0 (exactly
block 0 persisted).  With the default configured start block 0, the first
delivery request is 0, not T + 1 = 1. -/
theorem resume_tip_zero_counterexample :
    { emptyDB with blocks := [⟨0, 0, [], []⟩] }.blocks ≠ []
    ∧ tip { emptyDB with blocks := [⟨0, 0, [], []⟩] } = 0
    ∧ resumeStartBlock { emptyDB with blocks := [⟨0, 0, [], []⟩] } 0
        ≠ tip { emptyDB with blocks := [⟨0, 0, [], []⟩] } + 1 := by
  refine ⟨by decide, by decide, by decide⟩

/-- The reads-only loop of `emitNamespace` appends one ReadRecord per entry. -/
theorem emit_ro_fold (bn tn : Nat) (nsId : String) (l : List ProtoRead) :
    ∀ acc : ParsedBlockData,
    l.foldl (fun (a : ParsedBlockData) ro =>
      { a with reads := a.reads ++ [{
          blockNum := bn, txNum := tn, nsID := nsId, key := ro.key
          version := match ro.version with
            | some v => if 0 < v then some v else none
            | none => none
          isReadWrite := false }] }) acc
      = { acc with reads := acc.reads ++ l.map (fun ro =>
          { blockNum := bn, txNum := tn, nsID := nsId, key := ro.key
            version := match ro.version with
              | some v => if 0 < v then some v else none
              | none => none
            isReadWrite := false }) } := by
  induction l with
  | nil => intro acc; simp
  | cons hd tl ih =>
    intro acc
    simp only [List.foldl_cons, List.map_cons]
    rw [ih]
    simp

/-- The read-writes loop of `emitNamespace` appends one ReadRecord and one
WriteRecord per entry. -/
theorem emit_rw_fold (bn tn vc : Nat) (nsId txID : String) (l : List ProtoReadWrite) :
    ∀ acc : ParsedBlockData,
    l.foldl (fun (a : ParsedBlockData) rw =>
      let a : ParsedBlockData := { a with reads := a.reads ++ [{
          blockNum := bn, txNum := tn, nsID := nsId, key := rw.key
          version := match rw.version with
            | some v => if 0 < v then some v else none
            | none => none
          isReadWrite := true }] }
      ({ a with writes := a.writes ++ [{
          nsName := nsId, key := rw.key, blockNum := bn, txNum := tn
          value := rw.value, txID := txID
          validationCode := (vc : Int)
          isBlindWrite := false, readVersion := rw.version }] } : ParsedBlockData)) acc
      = { acc with
          reads := acc.reads ++ l.map (fun rw =>
            { blockNum := bn, txNum := tn, nsID := nsId, key := rw.key
              version := match rw.version with
                | some v => if 0 < v then some v else none
                | none => none
              isReadWrite := true })
          writes := acc.writes ++ l.map (fun rw =>
            { nsName := nsId, key := rw.key, blockNum := bn, txNum := tn
              value := rw.value, txID := txID
              validationCode := (vc : Int)
              isBlindWrite := false, readVersion := rw.version }) } := by
  induction l with
  | nil => intro acc; simp
  | cons hd tl ih =>
    intro acc
    simp only [List.foldl_cons, List.map_cons]
    rw [ih]
    simp

/-- The blind-writes loop of `emitNamespace` appends one WriteRecord per
entry. -/
theorem emit_bw_fold (bn tn vc : Nat) (nsId txID : String) (l : List ProtoWrite) :
    ∀ acc : ParsedBlockData,
    l.foldl (fun (a : ParsedBlockData) bw =>
      { a with writes := a.writes ++ [{
          nsName := nsId, key := bw.key, blockNum := bn, txNum := tn
          value := bw.value, txID := txID
          validationCode := (vc : Int)
          isBlindWrite := true, readVersion := none }] }) acc
      = { acc with writes := acc.writes ++ l.map (fun bw =>
          { nsName := nsId, key := bw.key, blockNum := bn, txNum := tn
            value := bw.value, txID := txID
            validationCode := (vc : Int)
            isBlindWrite := true, readVersion := none }) } := by
  induction l with
  | nil => intro acc; simp
  | cons hd tl ih =>
    intro acc
    simp only [List.foldl_cons, List.map_cons]
    rw [ih]
    simp

/-- The endorsement records `emitNamespace` appends for one namespace. -/
def endorsementRecordsOf (bn tn : Nat) (nd : NsData) : List EndorsementRecord :=
  if 0 < nd.endorsement.raw.length then
    match endorsementToIdentityJSON nd.endorsement with
    | none => [{ blockNum := bn, txNum := tn, nsID := nd.ns.nsId
                 endorsement := nd.endorsement.raw, mspID := none, identity := none }]
    | some pr => [{ blockNum := bn, txNum := tn, nsID := nd.ns.nsId
                    endorsement := nd.endorsement.raw
                    mspID := some pr.1, identity := some pr.2 }]
  else []

/-- Full characterization of `emitNamespace`: the namespace record is
appended, followed by its endorsement, reads and writes, and the policies
are untouched. -/
theorem emitNamespace_eq (bn tn vc : Nat) (nd : NsData) (acc : ParsedBlockData) :
    emitNamespace bn tn vc nd acc =
      { writes := acc.writes
          ++ nd.ns.readWrites.map (fun rw =>
            { nsName := nd.ns.nsId, key := rw.key, blockNum := bn, txNum := tn
              value := rw.value, txID := nd.txID
              validationCode := (vc : Int)
              isBlindWrite := false, readVersion := rw.version })
          ++ nd.ns.blindWrites.map (fun bw =>
            { nsName := nd.ns.nsId, key := bw.key, blockNum := bn, txNum := tn
              value := bw.value, txID := nd.txID
              validationCode := (vc : Int)
              isBlindWrite := true, readVersion := none })
        reads := acc.reads
          ++ nd.ns.readsOnly.map (fun ro =>
            { blockNum := bn, txNum := tn, nsID := nd.ns.nsId, key := ro.key
              version := match ro.version with
                | some v => if 0 < v then some v else none
                | none => none
              isReadWrite := false })
          ++ nd.ns.readWrites.map (fun rw =>
            { blockNum := bn, txNum := tn, nsID := nd.ns.nsId, key := rw.key
              version := match rw.version with
                | some v => if 0 < v then some v else none
                | none => none
              isReadWrite := true })
        txNamespaces := acc.txNamespaces ++ [{
          blockNum := bn, txNum := tn, txID := nd.txID
          nsID := nd.ns.nsId, nsVersion := nd.ns.nsVersion
          validationCode := (vc : Int) }]
        endorsements := acc.endorsements ++ endorsementRecordsOf bn tn nd
        policies := acc.policies } := by
  simp only [emitNamespace]
  rw [emit_ro_fold, emit_rw_fold, emit_bw_fold]
  unfold endorsementRecordsOf
  by_cases hc : 0 < nd.endorsement.raw.length
  · simp only [if_pos hc]
    cases hm : endorsementToIdentityJSON nd.endorsement with
    | none => simp [List.append_assoc]
    | some pr => simp [List.append_assoc]
  · simp only [if_neg hc]
    simp [List.append_assoc]

/-- C5: for each reads-only entry the decoder emits one ReadRecord with
`is_read_write = false` whose version is kept only when present and
strictly positive; for each read-write entry one ReadRecord with
`is_read_write = true` under the same version rule plus one WriteRecord
with `is_blind_write = false` whose `read_version` is the read half's
version; for each blind write one WriteRecord with `is_blind_write = true`
and no `read_version`. -/
theorem namespace_rw_emission (bn tn vc : Nat) (nd : NsData) (acc : ParsedBlockData) :
    (emitNamespace bn tn vc nd acc).reads
      = acc.reads
        ++ nd.ns.readsOnly.map (fun ro =>
          { blockNum := bn, txNum := tn, nsID := nd.ns.nsId, key := ro.key
            version := match ro.version with
              | some v => if 0 < v then some v else none
              | none => none
            isReadWrite := false })
        ++ nd.ns.readWrites.map (fun rw =>
          { blockNum := bn, txNum := tn, nsID := nd.ns.nsId, key := rw.key
            version := match rw.version with
              | some v => if 0 < v then some v else none
              | none => none
            isReadWrite := true })
    ∧ (emitNamespace bn tn vc nd acc).writes
      = acc.writes
        ++ nd.ns.readWrites.map (fun rw =>
          { nsName := nd.ns.nsId, key := rw.key, blockNum := bn, txNum := tn
            value := rw.value, txID := nd.txID
            validationCode := (vc : Int)
            isBlindWrite := false, readVersion := rw.version })
        ++ nd.ns.blindWrites.map (fun bw =>
          { nsName := nd.ns.nsId, key := bw.key, blockNum := bn, txNum := tn
            value := bw.value, txID := nd.txID
            validationCode := (vc : Int)
            isBlindWrite := true, readVersion := none }) := by
  rw [emitNamespace_eq]
  exact ⟨rfl, rfl⟩

/-- Whether the inner channel header of an envelope carries a configuration
type (CONFIG or CONFIG_UPDATE). -/
def isConfigHeaderType (env : Envelope) : Bool :=
  match env.payload with
  | PayloadBytes.good pl =>
    match pl.header with
    | some (some (ChanHdrBytes.good ty _)) =>
      ty == HeaderType_CONFIG || ty == HeaderType_CONFIG_UPDATE
    | _ => false
  | PayloadBytes.bad => false

/-- The ConfigTransaction fallback of `extractPolicies` only succeeds with
the non-empty singleton meta-namespace record. -/
theorem configTx_fallback (act : Option ConfigTransaction) (items : List NamespacePolicyRecord)
    (h : (match act with
          | some ctxn =>
            if 0 < ctxn.envelope.length then
              some [{ nsName := MetaNamespaceID, version := ctxn.version,
                      policyJSON := policyToJSON ctxn.envelope }]
            else none
          | none => none) = some items) : items ≠ [] := by
  cases act with
  | none => simp at h
  | some ctxn =>
    simp only [] at h
    by_cases he : 0 < ctxn.envelope.length
    · rw [if_pos he] at h
      obtain rfl : _ = items := Option.some.inj h
      simp
    · rw [if_neg he] at h
      simp at h

/-- When `extractPolicies` succeeds, its records are non-empty and the
channel header carries a configuration type. -/
theorem extractPolicies_spec (env : Envelope) (items : List NamespacePolicyRecord)
    (h : extractPolicies env = some items) :
    items ≠ [] ∧ isConfigHeaderType env = true := by
  obtain ⟨pay⟩ := env
  cases pay with
  | bad => simp [extractPolicies] at h
  | good pl =>
    obtain ⟨hdr, ap, act, atx⟩ := pl
    match hdr with
    | none => simp [extractPolicies] at h
    | some none => simp [extractPolicies] at h
    | some (some ChanHdrBytes.bad) => simp [extractPolicies] at h
    | some (some (ChanHdrBytes.good ty txId)) =>
      simp only [extractPolicies] at h
      by_cases hty : ty ≠ HeaderType_CONFIG ∧ ty ≠ HeaderType_CONFIG_UPDATE
      · rw [if_pos hty] at h
        exact absurd h (by simp)
      · rw [if_neg hty] at h
        have hcfg : isConfigHeaderType
            ⟨PayloadBytes.good ⟨some (some (ChanHdrBytes.good ty txId)), ap, act, atx⟩⟩ = true := by
          rcases not_and_or.mp hty with h1 | h2
          · push_neg at h1
            simp [isConfigHeaderType, h1]
          · push_neg at h2
            simp [isConfigHeaderType, h2]
        refine ⟨?_, hcfg⟩
        cases ap with
        | some pols =>
          simp only [] at h
          by_cases h1 : 0 < pols.policies.length
          · rw [if_pos h1] at h
            by_cases h2 : 0 < (buildPolicyItems pols.policies).length
            · simp only [if_pos h2] at h
              obtain rfl : buildPolicyItems pols.policies = items := by
                simpa using h
              exact List.ne_nil_of_length_pos h2
            · simp only [if_neg h2] at h
              exact configTx_fallback act items h
          · rw [if_neg h1] at h
            exact configTx_fallback act items h
        | none =>
          simp only [] at h
          exact configTx_fallback act items h

/-- C4: when policy extraction yields records, they are non-empty, the
channel header type is CONFIG or CONFIG_UPDATE, and the transaction step
appends exactly those records while emitting no namespace, read, write or
endorsement record; when it yields nothing, the step is exactly the
standard decoding path. -/
theorem policy_dominance :
    (∀ (env : Envelope) (items : List NamespacePolicyRecord),
      extractPolicies env = some items →
        items ≠ []
        ∧ isConfigHeaderType env = true
        ∧ ∀ (bn tn vc : Nat) (acc : ParsedBlockData),
            parseTxStep bn tn vc env acc
              = some { writes := acc.writes, reads := acc.reads
                       txNamespaces := acc.txNamespaces
                       endorsements := acc.endorsements
                       policies := acc.policies ++ items })
    ∧ (∀ env : Envelope, extractPolicies env = none →
        ∀ (bn tn vc : Nat) (acc : ParsedBlockData),
          parseTxStep bn tn vc env acc = standardTxStep bn tn vc env acc) := by
  constructor
  · intro env items h
    obtain ⟨hne, hcfg⟩ := extractPolicies_spec env items h
    refine ⟨hne, hcfg, ?_⟩
    intro bn tn vc acc
    unfold parseTxStep
    rw [h]
  · intro env h bn tn vc acc
    unfold parseTxStep
    rw [h]

/-- One concrete policy entry for the C4 witness. -/
def policyDataExample : PolicyData :=
  { nsName := "mycc", version := 1, policy := [1, 2, 3] }

/-- A concrete CONFIG transaction envelope carrying one namespace policy. -/
def envConfigExample : Envelope :=
  { payload := PayloadBytes.good {
      header := some (some (ChanHdrBytes.good 1 "cfgtx")),
      data := { asPolicies := some { policies := [policyDataExample] },
                asConfigTx := none, asTx := none } } }

/-- The policy records `extractPolicies` yields for `envConfigExample`. -/
def itemsConfigExample : List NamespacePolicyRecord :=
  [{ nsName := "mycc", version := 1, policyJSON := policyToJSON [1, 2, 3] }]

/-- Witness for C4 at the concrete CONFIG envelope. -/
theorem policy_dominance_witness :
    extractPolicies envConfigExample = some itemsConfigExample
    ∧ itemsConfigExample ≠ []
    ∧ isConfigHeaderType envConfigExample = true
    ∧ parseTxStep 0 0 1 envConfigExample emptyParsed
        = some { writes := emptyParsed.writes, reads := emptyParsed.reads
                 txNamespaces := emptyParsed.txNamespaces
                 endorsements := emptyParsed.endorsements
                 policies := emptyParsed.policies ++ itemsConfigExample } := by
  have hext : extractPolicies envConfigExample = some itemsConfigExample := by rfl
  obtain ⟨h1, h2, h3⟩ := policy_dominance.1 envConfigExample itemsConfigExample hext
  exact ⟨hext, h1, h2, h3 0 0 1 emptyParsed⟩

/-- Whether Parse returned its error case. -/
def ParseResult.isError : ParseResult → Bool
  | ParseResult.error _ _ _ => true
  | _ => false

/-- C6: Parse returns an error exactly when the block header is missing or
the metadata vector is missing or too short to hold TRANSACTIONS_FILTER;
indices beyond the filter, non-COMMITTED validation codes, undecodable
envelopes and undecodable inner payloads are all skipped, leaving the
accumulated data unchanged and failing nothing. -/
theorem parse_error_conditions :
    (∀ b : Block, (Parse b).isError = true ↔
        (b.header = none ∨ b.metadata = none
          ∨ ∃ md, b.metadata = some md ∧ md.length ≤ TRANSACTIONS_FILTER))
    ∧ (∀ (bn : Nat) (txFilter : List Nat) (txNum : Nat) (envBytes : EnvelopeBytes)
        (acc : ParsedBlockData), txFilter.length ≤ txNum →
          parseTxEntry bn txFilter txNum envBytes acc = some acc)
    ∧ (∀ (bn : Nat) (txFilter : List Nat) (txNum : Nat) (envBytes : EnvelopeBytes)
        (acc : ParsedBlockData), txFilter.getD txNum 0 ≠ Status_COMMITTED →
          parseTxEntry bn txFilter txNum envBytes acc = some acc)
    ∧ (∀ (bn : Nat) (txFilter : List Nat) (txNum : Nat) (acc : ParsedBlockData),
          parseTxEntry bn txFilter txNum EnvelopeBytes.bad acc = some acc)
    ∧ (∀ (bn tn vc : Nat) (env : Envelope) (acc : ParsedBlockData) (msg : String),
          rwSets env = RwOut.error msg → standardTxStep bn tn vc env acc = some acc) := by
  refine ⟨?_, ?_, ?_, ?_, ?_⟩
  · intro b
    obtain ⟨hdr, bdata, md⟩ := b
    cases hdr with
    | none => simp [Parse, ParseResult.isError]
    | some header =>
      cases md with
      | none => simp [Parse, ParseResult.isError]
      | some mdl =>
        by_cases hlen : mdl.length ≤ TRANSACTIONS_FILTER
        · simp [Parse, ParseResult.isError, hlen]
        · cases bdata with
          | none => simp [Parse, ParseResult.isError, hlen]
          | some bd =>
            cases hp : parseTxs header.number (mdl[TRANSACTIONS_FILTER]?.getD [])
                emptyParsed bd.data.enum with
            | none => simp [Parse, ParseResult.isError, hlen, hp]
            | some d => simp [Parse, ParseResult.isError, hlen, hp]
  · intro bn txFilter txNum envBytes acc hskip
    unfold parseTxEntry
    rw [if_pos hskip]
  · intro bn txFilter txNum envBytes acc hvc
    unfold parseTxEntry
    by_cases hskip : txFilter.length ≤ txNum
    · rw [if_pos hskip]
    · rw [if_neg hskip, if_pos hvc]
  · intro bn txFilter txNum acc
    unfold parseTxEntry
    by_cases hskip : txFilter.length ≤ txNum
    · rw [if_pos hskip]
    · rw [if_neg hskip]
      by_cases hvc : txFilter.getD txNum 0 ≠ Status_COMMITTED
      · rw [if_pos hvc]
      · rw [if_neg hvc]
  · intro bn tn vc env acc msg h
    unfold standardTxStep
    rw [h]

/-- An envelope whose payload decodes with a nil channel-header byte slice
but whose data fails to decode as a Tx: `rwSets` returns an error. -/
def envBadTxExample : Envelope :=
  { payload := PayloadBytes.good {
      header := some none,
      data := { asPolicies := none, asConfigTx := none, asTx := none } } }

/-- Witness for C6 at concrete inputs. -/
theorem parse_error_conditions_witness :
    (Parse { header := none, data := none, metadata := none }).isError = true
    ∧ parseTxEntry 0 [] 0 EnvelopeBytes.bad emptyParsed = some emptyParsed
    ∧ parseTxEntry 0 [0] 0 EnvelopeBytes.bad emptyParsed = some emptyParsed
    ∧ standardTxStep 0 0 1 envBadTxExample emptyParsed = some emptyParsed :=
  ⟨(parse_error_conditions.1 { header := none, data := none, metadata := none }).mpr
      (Or.inl rfl),
   parse_error_conditions.2.1 0 [] 0 EnvelopeBytes.bad emptyParsed (by decide),
   parse_error_conditions.2.2.1 0 [0] 0 EnvelopeBytes.bad emptyParsed (by decide),
   parse_error_conditions.2.2.2.2 0 0 1 envBadTxExample emptyParsed "transaction" rfl⟩

/-- Referential consistency of a decoded block: every read, write and
endorsement carries a (block number, tx index, namespace id) triple for
which a TxNamespaceRecord with the same triple is present.  This is the
invariant that lets the writer's in-transaction cache resolve
`tx_namespace_id` for every child insert. -/
def consistentTriples (d : ParsedBlockData) : Prop :=
  (∀ r ∈ d.reads, ∃ t ∈ d.txNamespaces,
      t.blockNum = r.blockNum ∧ t.txNum = r.txNum ∧ t.nsID = r.nsID)
  ∧ (∀ w ∈ d.writes, ∃ t ∈ d.txNamespaces,
      t.blockNum = w.blockNum ∧ t.txNum = w.txNum ∧ t.nsID = w.nsName)
  ∧ (∀ e ∈ d.endorsements, ∃ t ∈ d.txNamespaces,
      t.blockNum = e.blockNum ∧ t.txNum = e.txNum ∧ t.nsID = e.nsID)

/-- `emitNamespace` preserves referential consistency: the namespace record
it appends carries exactly the triple stamped on every child it appends. -/
theorem consistent_emitNamespace (bn tn vc : Nat) (nd : NsData) (acc : ParsedBlockData)
    (h : consistentTriples acc) : consistentTriples (emitNamespace bn tn vc nd acc) := by
  obtain ⟨hr, hw, he⟩ := h
  rw [emitNamespace_eq]
  set newRec : TxNamespaceRecord :=
    { blockNum := bn, txNum := tn, txID := nd.txID
      nsID := nd.ns.nsId, nsVersion := nd.ns.nsVersion
      validationCode := (vc : Int) } with hnew
  have hmemNew : newRec ∈ acc.txNamespaces ++ [newRec] := by
    simp
  refine ⟨?_, ?_, ?_⟩
  · intro r hrm
    simp only [List.mem_append] at hrm
    rcases hrm with (hrm | hrm) | hrm
    · obtain ⟨t, ht, hprops⟩ := hr r hrm
      exact ⟨t, List.mem_append_left _ ht, hprops⟩
    · obtain ⟨ro, _, rfl⟩ := List.mem_map.mp hrm
      exact ⟨newRec, hmemNew, rfl, rfl, rfl⟩
    · obtain ⟨rw, _, rfl⟩ := List.mem_map.mp hrm
      exact ⟨newRec, hmemNew, rfl, rfl, rfl⟩
  · intro w hwm
    simp only [List.mem_append] at hwm
    rcases hwm with (hwm | hwm) | hwm
    · obtain ⟨t, ht, hprops⟩ := hw w hwm
      exact ⟨t, List.mem_append_left _ ht, hprops⟩
    · obtain ⟨rw, _, rfl⟩ := List.mem_map.mp hwm
      exact ⟨newRec, hmemNew, rfl, rfl, rfl⟩
    · obtain ⟨bw, _, rfl⟩ := List.mem_map.mp hwm
      exact ⟨newRec, hmemNew, rfl, rfl, rfl⟩
  · intro e hem
    simp only [List.mem_append] at hem
    rcases hem with hem | hem
    · obtain ⟨t, ht, hprops⟩ := he e hem
      exact ⟨t, List.mem_append_left _ ht, hprops⟩
    · refine ⟨newRec, hmemNew, ?_⟩
      unfold endorsementRecordsOf at hem
      by_cases hc : 0 < nd.endorsement.raw.length
      · rw [if_pos hc] at hem
        cases hj : endorsementToIdentityJSON nd.endorsement with
        | none =>
          rw [hj] at hem
          simp only [List.mem_singleton] at hem
          subst hem
          exact ⟨rfl, rfl, rfl⟩
        | some pr =>
          rw [hj] at hem
          simp only [List.mem_singleton] at hem
          subst hem
          exact ⟨rfl, rfl, rfl⟩
      · rw [if_neg hc] at hem
        simp at hem

/-- `emitNamespaces` preserves referential consistency. -/
theorem consistent_emitNamespaces (bn tn vc : Nat) (l : List NsData) :
    ∀ acc : ParsedBlockData, consistentTriples acc →
      consistentTriples (emitNamespaces bn tn vc l acc) := by
  induction l with
  | nil => intro acc h; exact h
  | cons nd rest ih =>
    intro acc h
    unfold emitNamespaces at ih ⊢
    simp only [List.foldl_cons]
    exact ih _ (consistent_emitNamespace bn tn vc nd acc h)

/-- A transaction step preserves referential consistency. -/
theorem consistent_parseTxStep (bn tn vc : Nat) (env : Envelope)
    (acc acc' : ParsedBlockData) (hstep : parseTxStep bn tn vc env acc = some acc')
    (h : consistentTriples acc) : consistentTriples acc' := by
  unfold parseTxStep at hstep
  cases hx : extractPolicies env with
  | some items =>
    rw [hx] at hstep
    obtain rfl : _ = acc' := Option.some.inj hstep
    exact h
  | none =>
    rw [hx] at hstep
    unfold standardTxStep at hstep
    cases hr : rwSets env with
    | panicked => rw [hr] at hstep; exact absurd hstep (by simp)
    | error msg =>
      rw [hr] at hstep
      obtain rfl : acc = acc' := Option.some.inj hstep
      exact h
    | ok nsList =>
      rw [hr] at hstep
      obtain rfl : _ = acc' := Option.some.inj hstep
      exact consistent_emitNamespaces bn tn vc nsList acc h

/-- A loop entry preserves referential consistency. -/
theorem consistent_parseTxEntry (bn : Nat) (txFilter : List Nat) (txNum : Nat)
    (envBytes : EnvelopeBytes) (acc acc' : ParsedBlockData)
    (hstep : parseTxEntry bn txFilter txNum envBytes acc = some acc')
    (h : consistentTriples acc) : consistentTriples acc' := by
  unfold parseTxEntry at hstep
  by_cases hskip : txFilter.length ≤ txNum
  · rw [if_pos hskip] at hstep
    obtain rfl : acc = acc' := Option.some.inj hstep
    exact h
  · rw [if_neg hskip] at hstep
    by_cases hvc : txFilter.getD txNum 0 ≠ Status_COMMITTED
    · rw [if_pos hvc] at hstep
      obtain rfl : acc = acc' := Option.some.inj hstep
      exact h
    · rw [if_neg hvc] at hstep
      cases envBytes with
      | bad =>
        obtain rfl : acc = acc' := Option.some.inj hstep
        exact h
      | good env => exact consistent_parseTxStep bn txNum _ env acc acc' hstep h

/-- The transaction loop preserves referential consistency. -/
theorem consistent_parseTxs (bn : Nat) (txFilter : List Nat)
    (l : List (Nat × EnvelopeBytes)) :
    ∀ acc d : ParsedBlockData, parseTxs bn txFilter acc l = some d →
      consistentTriples acc → consistentTriples d := by
  induction l with
  | nil =>
    intro acc d hp h
    obtain rfl : acc = d := Option.some.inj hp
    exact h
  | cons hd rest ih =>
    intro acc d hp h
    obtain ⟨txNum, envBytes⟩ := hd
    unfold parseTxs at hp
    cases hstep : parseTxEntry bn txFilter txNum envBytes acc with
    | none => rw [hstep] at hp; exact absurd hp (by simp)
    | some acc' =>
      rw [hstep] at hp
      exact ih acc' d hp (consistent_parseTxEntry bn txFilter txNum envBytes acc acc' hstep h)

/-- C10: every block Parse accepts is referentially consistent — each read,
write and endorsement triple has a matching TxNamespaceRecord in the same
ParsedBlockData. -/
theorem parse_referential_consistency (b : Block) (d : ParsedBlockData) (info : BlockInfo)
    (h : Parse b = ParseResult.ok d info) : consistentTriples d := by
  obtain ⟨hdr, bdata, md⟩ := b
  cases hdr with
  | none => exact absurd h (by simp [Parse])
  | some header =>
    cases md with
    | none => exact absurd h (by simp [Parse])
    | some mdl =>
      simp only [Parse] at h
      by_cases hlen : mdl.length ≤ TRANSACTIONS_FILTER
      · rw [if_pos hlen] at h
        exact absurd h (by simp)
      · rw [if_neg hlen] at h
        cases bdata with
        | none => exact absurd h (by simp)
        | some bd =>
          simp only [] at h
          cases hp : parseTxs header.number (mdl.getD TRANSACTIONS_FILTER [])
              emptyParsed bd.data.enum with
          | none => rw [hp] at h; exact absurd h (by simp)
          | some d' =>
            rw [hp] at h
            have hd : d' = d := by
              have := ParseResult.ok.inj h
              exact this.1
            subst hd
            refine consistent_parseTxs header.number (mdl.getD TRANSACTIONS_FILTER [])
              bd.data.enum emptyParsed d' hp ?_
            refine ⟨?_, ?_, ?_⟩ <;> intro x hx <;> exact absurd hx (by simp [emptyParsed])

/-- The single namespace of the C10 witness transaction. -/
def nsStdExample : TxNamespace :=
  { nsId := "mycc", nsVersion := 1,
    readsOnly := [{ key := "r1", version := some 5 }],
    readWrites := [], blindWrites := [] }

/-- The envelope of the C10 witness transaction. -/
def envStdExample : Envelope :=
  { payload := PayloadBytes.good {
      header := some (some (ChanHdrBytes.good 3 "ab")),
      data := { asPolicies := none, asConfigTx := none,
                asTx := some { namespaces := [nsStdExample], signatures := [] } } } }

/-- A concrete standard transaction block for the C10 witness. -/
def blockStdExample : Block :=
  { header := some { number := 10, previousHash := [1], dataHash := [2] },
    data := some { data := [EnvelopeBytes.good envStdExample] },
    metadata := some [[], [], [1]] }

/-- What Parse yields for `blockStdExample`. -/
def parsedStdExample : ParsedBlockData :=
  { writes := []
    reads := [{ blockNum := 10, txNum := 0, nsID := "mycc", key := "r1",
                version := some 5, isReadWrite := false }]
    txNamespaces := [{ blockNum := 10, txNum := 0, txID := "ab", nsID := "mycc",
                       nsVersion := 1, validationCode := 1 }]
    endorsements := []
    policies := [] }

/-- Witness for C10 at the concrete standard block. -/
theorem parse_referential_consistency_witness :
    Parse blockStdExample
      = ParseResult.ok parsedStdExample { number := 10, previousHash := [1], dataHash := [2] }
    ∧ consistentTriples parsedStdExample :=
  ⟨rfl, parse_referential_consistency blockStdExample parsedStdExample
      { number := 10, previousHash := [1], dataHash := [2] } rfl⟩

/-! ## Behavior of the single statements -/

/-- Whether a block row with the given number exists. -/
def hasBlock (db : DB) (blockNum : Nat) : Bool :=
  db.blocks.any (fun r => r.blockNum == blockNum)

/-- `insertBlock` touches only the blocks table (and the trace). -/
theorem insertBlock_frame (db : DB) (bn tc : Nat) (ph dh : List Nat) :
    (db.insertBlock bn tc ph dh).transactions = db.transactions
    ∧ (db.insertBlock bn tc ph dh).txNamespaces = db.txNamespaces
    ∧ (db.insertBlock bn tc ph dh).txReads = db.txReads
    ∧ (db.insertBlock bn tc ph dh).txWrites = db.txWrites
    ∧ (db.insertBlock bn tc ph dh).txEndorsements = db.txEndorsements
    ∧ (db.insertBlock bn tc ph dh).namespacePolicies = db.namespacePolicies
    ∧ (db.insertBlock bn tc ph dh).nextTransactionID = db.nextTransactionID
    ∧ (db.insertBlock bn tc ph dh).nextTxNamespaceID = db.nextTxNamespaceID
    ∧ (db.insertBlock bn tc ph dh).trace = db.trace ++ [Stmt.insertBlock] := by
  unfold DB.insertBlock
  by_cases hc : db.blocks.any (fun r => r.blockNum == bn)
  · simp [hc]
  · simp [hc]

/-- The block row is present after `insertBlock`, and a present block row
makes the insert a no-op on the blocks table. -/
theorem insertBlock_blocks (db : DB) (bn tc : Nat) (ph dh : List Nat) :
    hasBlock (db.insertBlock bn tc ph dh) bn = true
    ∧ (hasBlock db bn = true → (db.insertBlock bn tc ph dh).blocks = db.blocks)
    ∧ (hasBlock db bn = false →
        (db.insertBlock bn tc ph dh).blocks = db.blocks ++ [⟨bn, tc, ph, dh⟩]) := by
  unfold DB.insertBlock hasBlock
  by_cases hc : db.blocks.any (fun r => r.blockNum == bn)
  · simp [hc]
  · simp only [hc, Bool.false_eq_true, if_false]
    refine ⟨?_, by simp, by simp⟩
    simp [List.any_append]

/-- `insertTransaction` touches only the transactions table, its id counter
and the trace. -/
theorem insertTransaction_frame (db : DB) (bn tn : Nat) (txID : List Nat) (vc : Int) :
    (db.insertTransaction bn tn txID vc).2.blocks = db.blocks
    ∧ (db.insertTransaction bn tn txID vc).2.txNamespaces = db.txNamespaces
    ∧ (db.insertTransaction bn tn txID vc).2.txReads = db.txReads
    ∧ (db.insertTransaction bn tn txID vc).2.txWrites = db.txWrites
    ∧ (db.insertTransaction bn tn txID vc).2.txEndorsements = db.txEndorsements
    ∧ (db.insertTransaction bn tn txID vc).2.namespacePolicies = db.namespacePolicies
    ∧ (db.insertTransaction bn tn txID vc).2.nextTxNamespaceID = db.nextTxNamespaceID
    ∧ (db.insertTransaction bn tn txID vc).2.trace = db.trace ++ [Stmt.insertTransaction] := by
  unfold DB.insertTransaction
  cases hf : findTx { db with trace := db.trace ++ [Stmt.insertTransaction] } bn tn with
  | some r => simp [hf]
  | none => simp [hf]

/-- `findTx` ignores the trace. -/
theorem findTx_trace (db : DB) (tr : List Stmt) (bn tn : Nat) :
    findTx { db with trace := tr } bn tn = findTx db bn tn := rfl

/-- On conflict `insertTransaction` keeps the table length and returns the
existing row's id; otherwise it appends one fresh row. -/
theorem insertTransaction_conflict (db : DB) (bn tn : Nat) (txID : List Nat) (vc : Int) :
    (∀ r, findTx db bn tn = some r →
      (db.insertTransaction bn tn txID vc).1 = r.id
      ∧ (db.insertTransaction bn tn txID vc).2.transactions.length = db.transactions.length)
    ∧ (findTx db bn tn = none →
      (db.insertTransaction bn tn txID vc).1 = db.nextTransactionID
      ∧ (db.insertTransaction bn tn txID vc).2.transactions
          = db.transactions ++ [⟨db.nextTransactionID, bn, tn, txID, vc⟩]
      ∧ (db.insertTransaction bn tn txID vc).2.nextTransactionID
          = db.nextTransactionID + 1) := by
  constructor
  · intro r hr
    unfold DB.insertTransaction
    simp only [findTx_trace, hr]
    simp
  · intro hn
    unfold DB.insertTransaction
    simp only [findTx_trace, hn]
    simp

/-- The defensive `tx_id` update of a conflicting insert keeps each row's
key fields and id. -/
theorem txUpdate_preserves (bn tn : Nat) (txID : List Nat) (t : TransactionRow) :
    (if (t.blockNum == bn && t.txNum == tn) = true then
        { t with txID := txID } else t).blockNum = t.blockNum
    ∧ (if (t.blockNum == bn && t.txNum == tn) = true then
        { t with txID := txID } else t).txNum = t.txNum
    ∧ (if (t.blockNum == bn && t.txNum == tn) = true then
        { t with txID := txID } else t).id = t.id := by
  by_cases hc : (t.blockNum == bn && t.txNum == tn) = true
  · simp [hc]
  · simp [hc]

/-- Rows found before `insertTransaction` are still found afterwards with
the same surrogate id. -/
theorem insertTransaction_id_stable (db : DB) (bn tn : Nat) (txID : List Nat) (vc : Int)
    (bn' tn' : Nat) (r : TransactionRow) (h : findTx db bn' tn' = some r) :
    ∃ r', findTx (db.insertTransaction bn tn txID vc).2 bn' tn' = some r' ∧ r'.id = r.id := by
  unfold DB.insertTransaction
  simp only [findTx_trace]
  cases hf : findTx db bn tn with
  | some r0 =>
    simp only [hf]
    refine ⟨if (r.blockNum == bn && r.txNum == tn) = true then { r with txID := txID } else r,
      ?_, (txUpdate_preserves bn tn txID r).2.2⟩
    show List.find? _ (List.map _ _) = _
    rw [List.find?_map]
    have hp : ((fun t : TransactionRow => t.blockNum == bn' && t.txNum == tn')
        ∘ (fun t => if (t.blockNum == bn && t.txNum == tn) = true
            then { t with txID := txID } else t))
        = (fun t : TransactionRow => t.blockNum == bn' && t.txNum == tn') := by
      funext t
      obtain ⟨h1, h2, _⟩ := txUpdate_preserves bn tn txID t
      simp only [Function.comp_apply, h1, h2]
    rw [hp]
    unfold findTx at h
    rw [h]
    rfl
  | none =>
    simp only [hf]
    refine ⟨r, ?_, rfl⟩
    show List.find? _ (_ ++ _) = _
    rw [List.find?_append]
    unfold findTx at h
    rw [h]
    rfl

/-- After `insertTransaction` the key is present, and the row found under
the key carries the id the statement returned. -/
theorem insertTransaction_key_present (db : DB) (bn tn : Nat) (txID : List Nat) (vc : Int) :
    ∃ r, findTx (db.insertTransaction bn tn txID vc).2 bn tn = some r
      ∧ r.id = (db.insertTransaction bn tn txID vc).1 := by
  unfold DB.insertTransaction
  simp only [findTx_trace]
  cases hf : findTx db bn tn with
  | some r0 =>
    simp only [hf]
    have hkey : (r0.blockNum == bn && r0.txNum == tn) = true := by
      unfold findTx at hf
      have := List.find?_some hf
      exact this
    refine ⟨{ r0 with txID := txID }, ?_, rfl⟩
    show List.find? _ (List.map _ _) = _
    rw [List.find?_map]
    have hp : ((fun t : TransactionRow => t.blockNum == bn && t.txNum == tn)
        ∘ (fun t => if (t.blockNum == bn && t.txNum == tn) = true
            then { t with txID := txID } else t))
        = (fun t : TransactionRow => t.blockNum == bn && t.txNum == tn) := by
      funext t
      obtain ⟨h1, h2, _⟩ := txUpdate_preserves bn tn txID t
      simp only [Function.comp_apply, h1, h2]
    rw [hp]
    unfold findTx at hf
    rw [hf]
    simp only [Option.map_some']
    rw [if_pos hkey]
  | none =>
    simp only [hf]
    refine ⟨⟨db.nextTransactionID, bn, tn, txID, vc⟩, ?_, rfl⟩
    show List.find? _ (_ ++ _) = _
    rw [List.find?_append]
    unfold findTx at hf
    rw [hf]
    simp

/-- `findTxNs` ignores the trace. -/
theorem findTxNs_trace (db : DB) (tr : List Stmt) (tid : Nat) (ns : String) :
    findTxNs { db with trace := tr } tid ns = findTxNs db tid ns := rfl

/-- `findPolicy` ignores the trace. -/
theorem findPolicy_trace (db : DB) (tr : List Stmt) (ns : String) (ver : Nat) :
    findPolicy { db with trace := tr } ns ver = findPolicy db ns ver := rfl

/-- `insertTxNamespace` touches only the tx_namespaces table, its id
counter and the trace. -/
theorem insertTxNamespace_frame (db : DB) (tid : Nat) (ns : String) (ver : Nat) :
    (db.insertTxNamespace tid ns ver).2.blocks = db.blocks
    ∧ (db.insertTxNamespace tid ns ver).2.transactions = db.transactions
    ∧ (db.insertTxNamespace tid ns ver).2.txReads = db.txReads
    ∧ (db.insertTxNamespace tid ns ver).2.txWrites = db.txWrites
    ∧ (db.insertTxNamespace tid ns ver).2.txEndorsements = db.txEndorsements
    ∧ (db.insertTxNamespace tid ns ver).2.namespacePolicies = db.namespacePolicies
    ∧ (db.insertTxNamespace tid ns ver).2.nextTransactionID = db.nextTransactionID
    ∧ (db.insertTxNamespace tid ns ver).2.trace = db.trace ++ [Stmt.insertTxNamespace] := by
  unfold DB.insertTxNamespace
  cases hf : findTxNs { db with trace := db.trace ++ [Stmt.insertTxNamespace] } tid ns with
  | some r => simp [hf]
  | none => simp [hf]

/-- The version update of a conflicting namespace insert keeps keys and id. -/
theorem nsUpdate_preserves (tid : Nat) (ns : String) (ver : Nat) (t : TxNamespaceRow) :
    (if (t.transactionID == tid && t.nsID == ns) = true then
        { t with nsVersion := ver } else t).transactionID = t.transactionID
    ∧ (if (t.transactionID == tid && t.nsID == ns) = true then
        { t with nsVersion := ver } else t).nsID = t.nsID
    ∧ (if (t.transactionID == tid && t.nsID == ns) = true then
        { t with nsVersion := ver } else t).id = t.id := by
  by_cases hc : (t.transactionID == tid && t.nsID == ns) = true
  · simp [hc]
  · simp [hc]

/-- On conflict `insertTxNamespace` keeps the table length and returns the
existing id; otherwise it appends one fresh row. -/
theorem insertTxNamespace_conflict (db : DB) (tid : Nat) (ns : String) (ver : Nat) :
    (∀ r, findTxNs db tid ns = some r →
      (db.insertTxNamespace tid ns ver).1 = r.id
      ∧ (db.insertTxNamespace tid ns ver).2.txNamespaces.length = db.txNamespaces.length)
    ∧ (findTxNs db tid ns = none →
      (db.insertTxNamespace tid ns ver).2.txNamespaces
        = db.txNamespaces ++ [⟨db.nextTxNamespaceID, tid, ns, ver⟩]) := by
  constructor
  · intro r hr
    unfold DB.insertTxNamespace
    simp only [findTxNs_trace, hr]
    simp
  · intro hn
    unfold DB.insertTxNamespace
    simp only [findTxNs_trace, hn]

/-- Namespace keys present before `insertTxNamespace` remain present. -/
theorem insertTxNamespace_key_stable (db : DB) (tid : Nat) (ns : String) (ver : Nat)
    (tid' : Nat) (ns' : String) (h : (findTxNs db tid' ns').isSome = true) :
    (findTxNs (db.insertTxNamespace tid ns ver).2 tid' ns').isSome = true := by
  unfold DB.insertTxNamespace
  simp only [findTxNs_trace]
  cases hf : findTxNs db tid ns with
  | some r0 =>
    simp only [hf]
    show (List.find? _ (List.map _ _)).isSome = true
    rw [List.find?_map]
    have hp : ((fun t : TxNamespaceRow => t.transactionID == tid' && t.nsID == ns')
        ∘ (fun t => if (t.transactionID == tid && t.nsID == ns) = true
            then { t with nsVersion := ver } else t))
        = (fun t : TxNamespaceRow => t.transactionID == tid' && t.nsID == ns') := by
      funext t
      obtain ⟨h1, h2, _⟩ := nsUpdate_preserves tid ns ver t
      simp only [Function.comp_apply, h1, h2]
    rw [hp]
    unfold findTxNs at h
    cases hx : List.find? (fun r => r.transactionID == tid' && r.nsID == ns') db.txNamespaces with
    | some r => rfl
    | none => rw [hx] at h; simp at h
  | none =>
    simp only [hf]
    show (List.find? _ (_ ++ _)).isSome = true
    rw [List.find?_append]
    unfold findTxNs at h
    cases hx : List.find? (fun r => r.transactionID == tid' && r.nsID == ns') db.txNamespaces with
    | some r => simp
    | none => rw [hx] at h; simp at h

/-- The namespace key is present after `insertTxNamespace`. -/
theorem insertTxNamespace_key_present (db : DB) (tid : Nat) (ns : String) (ver : Nat) :
    (findTxNs (db.insertTxNamespace tid ns ver).2 tid ns).isSome = true := by
  unfold DB.insertTxNamespace
  simp only [findTxNs_trace]
  cases hf : findTxNs db tid ns with
  | some r0 =>
    simp only [hf]
    show (List.find? _ (List.map _ _)).isSome = true
    rw [List.find?_map]
    have hp : ((fun t : TxNamespaceRow => t.transactionID == tid && t.nsID == ns)
        ∘ (fun t => if (t.transactionID == tid && t.nsID == ns) = true
            then { t with nsVersion := ver } else t))
        = (fun t : TxNamespaceRow => t.transactionID == tid && t.nsID == ns) := by
      funext t
      obtain ⟨h1, h2, _⟩ := nsUpdate_preserves tid ns ver t
      simp only [Function.comp_apply, h1, h2]
    rw [hp]
    unfold findTxNs at hf
    rw [hf]
    simp
  | none =>
    simp only [hf]
    show (List.find? _ (_ ++ _)).isSome = true
    rw [List.find?_append]
    unfold findTxNs at hf
    rw [hf]
    simp

/-- `upsertNamespacePolicy` touches only the namespace_policies table and
the trace. -/
theorem upsertNamespacePolicy_frame (db : DB) (ns : String) (ver : Nat) (pol : String) :
    (db.upsertNamespacePolicy ns ver pol).blocks = db.blocks
    ∧ (db.upsertNamespacePolicy ns ver pol).transactions = db.transactions
    ∧ (db.upsertNamespacePolicy ns ver pol).txNamespaces = db.txNamespaces
    ∧ (db.upsertNamespacePolicy ns ver pol).txReads = db.txReads
    ∧ (db.upsertNamespacePolicy ns ver pol).txWrites = db.txWrites
    ∧ (db.upsertNamespacePolicy ns ver pol).txEndorsements = db.txEndorsements
    ∧ (db.upsertNamespacePolicy ns ver pol).nextTransactionID = db.nextTransactionID
    ∧ (db.upsertNamespacePolicy ns ver pol).nextTxNamespaceID = db.nextTxNamespaceID
    ∧ (db.upsertNamespacePolicy ns ver pol).trace
        = db.trace ++ [Stmt.upsertNamespacePolicy] := by
  unfold DB.upsertNamespacePolicy
  cases hf : findPolicy { db with trace := db.trace ++ [Stmt.upsertNamespacePolicy] } ns ver with
  | some r => simp [hf]
  | none => simp [hf]

/-- The overwrite of a conflicting policy upsert keeps each row's key. -/
theorem policyUpdate_preserves (ns : String) (ver : Nat) (pol : String)
    (t : NamespacePolicyRow) :
    (if (t.nsName == ns && t.version == ver) = true then
        { t with policy := pol } else t).nsName = t.nsName
    ∧ (if (t.nsName == ns && t.version == ver) = true then
        { t with policy := pol } else t).version = t.version := by
  by_cases hc : (t.nsName == ns && t.version == ver) = true
  · simp [hc]
  · simp [hc]

/-- On conflict the upsert keeps the table length; otherwise it appends. -/
theorem upsertNamespacePolicy_conflict (db : DB) (ns : String) (ver : Nat) (pol : String) :
    ((findPolicy db ns ver).isSome = true →
      (db.upsertNamespacePolicy ns ver pol).namespacePolicies.length
        = db.namespacePolicies.length)
    ∧ (findPolicy db ns ver = none →
      (db.upsertNamespacePolicy ns ver pol).namespacePolicies
        = db.namespacePolicies ++ [⟨ns, ver, pol⟩]) := by
  constructor
  · intro h
    unfold DB.upsertNamespacePolicy
    simp only [findPolicy_trace]
    cases hf : findPolicy db ns ver with
    | some r => simp [hf]
    | none => rw [hf] at h; simp at h
  · intro hn
    unfold DB.upsertNamespacePolicy
    simp only [findPolicy_trace, hn]

/-- Policy keys present before an upsert remain present. -/
theorem upsertNamespacePolicy_key_stable (db : DB) (ns : String) (ver : Nat) (pol : String)
    (ns' : String) (ver' : Nat) (h : (findPolicy db ns' ver').isSome = true) :
    (findPolicy (db.upsertNamespacePolicy ns ver pol) ns' ver').isSome = true := by
  unfold DB.upsertNamespacePolicy
  simp only [findPolicy_trace]
  cases hf : findPolicy db ns ver with
  | some r0 =>
    simp only [hf]
    show (List.find? _ (List.map _ _)).isSome = true
    rw [List.find?_map]
    have hp : ((fun t : NamespacePolicyRow => t.nsName == ns' && t.version == ver')
        ∘ (fun t => if (t.nsName == ns && t.version == ver) = true
            then { t with policy := pol } else t))
        = (fun t : NamespacePolicyRow => t.nsName == ns' && t.version == ver') := by
      funext t
      obtain ⟨h1, h2⟩ := policyUpdate_preserves ns ver pol t
      simp only [Function.comp_apply, h1, h2]
    rw [hp]
    unfold findPolicy at h
    cases hx : List.find? (fun r => r.nsName == ns' && r.version == ver') db.namespacePolicies with
    | some r => rfl
    | none => rw [hx] at h; simp at h
  | none =>
    simp only [hf]
    show (List.find? _ (_ ++ _)).isSome = true
    rw [List.find?_append]
    unfold findPolicy at h
    cases hx : List.find? (fun r => r.nsName == ns' && r.version == ver') db.namespacePolicies with
    | some r => simp
    | none => rw [hx] at h; simp at h

/-- The policy key is present after an upsert. -/
theorem upsertNamespacePolicy_key_present (db : DB) (ns : String) (ver : Nat) (pol : String) :
    (findPolicy (db.upsertNamespacePolicy ns ver pol) ns ver).isSome = true := by
  unfold DB.upsertNamespacePolicy
  simp only [findPolicy_trace]
  cases hf : findPolicy db ns ver with
  | some r0 =>
    simp only [hf]
    show (List.find? _ (List.map _ _)).isSome = true
    rw [List.find?_map]
    have hp : ((fun t : NamespacePolicyRow => t.nsName == ns && t.version == ver)
        ∘ (fun t => if (t.nsName == ns && t.version == ver) = true
            then { t with policy := pol } else t))
        = (fun t : NamespacePolicyRow => t.nsName == ns && t.version == ver) := by
      funext t
      obtain ⟨h1, h2⟩ := policyUpdate_preserves ns ver pol t
      simp only [Function.comp_apply, h1, h2]
    rw [hp]
    unfold findPolicy at hf
    rw [hf]
    rfl
  | none =>
    simp only [hf]
    show (List.find? _ (_ ++ _)).isSome = true
    rw [List.find?_append]
    unfold findPolicy at hf
    rw [hf]
    simp

/-- `insertTxRead` appends one row to tx_reads and touches nothing else. -/
theorem insertTxRead_frame (db : DB) (tid : Nat) (key : String) (ver : Option Nat)
    (irw : Bool) :
    (db.insertTxRead tid key ver irw).blocks = db.blocks
    ∧ (db.insertTxRead tid key ver irw).transactions = db.transactions
    ∧ (db.insertTxRead tid key ver irw).txNamespaces = db.txNamespaces
    ∧ (db.insertTxRead tid key ver irw).txReads.length = db.txReads.length + 1
    ∧ (db.insertTxRead tid key ver irw).txWrites = db.txWrites
    ∧ (db.insertTxRead tid key ver irw).txEndorsements = db.txEndorsements
    ∧ (db.insertTxRead tid key ver irw).namespacePolicies = db.namespacePolicies
    ∧ (db.insertTxRead tid key ver irw).nextTransactionID = db.nextTransactionID
    ∧ (db.insertTxRead tid key ver irw).nextTxNamespaceID = db.nextTxNamespaceID
    ∧ (db.insertTxRead tid key ver irw).trace = db.trace ++ [Stmt.insertTxRead] := by
  unfold DB.insertTxRead
  simp

/-- `insertTxEndorsement` appends one row to tx_endorsements only. -/
theorem insertTxEndorsement_frame (db : DB) (tid : Nat) (e : List Nat)
    (m : Option String) (idn : Option String) :
    (db.insertTxEndorsement tid e m idn).blocks = db.blocks
    ∧ (db.insertTxEndorsement tid e m idn).transactions = db.transactions
    ∧ (db.insertTxEndorsement tid e m idn).txNamespaces = db.txNamespaces
    ∧ (db.insertTxEndorsement tid e m idn).txReads = db.txReads
    ∧ (db.insertTxEndorsement tid e m idn).txEndorsements.length
        = db.txEndorsements.length + 1
    ∧ (db.insertTxEndorsement tid e m idn).txWrites = db.txWrites
    ∧ (db.insertTxEndorsement tid e m idn).namespacePolicies = db.namespacePolicies
    ∧ (db.insertTxEndorsement tid e m idn).nextTransactionID = db.nextTransactionID
    ∧ (db.insertTxEndorsement tid e m idn).nextTxNamespaceID = db.nextTxNamespaceID
    ∧ (db.insertTxEndorsement tid e m idn).trace
        = db.trace ++ [Stmt.insertTxEndorsement] := by
  unfold DB.insertTxEndorsement
  simp

/-- `insertTxWrite` appends one row to tx_writes only. -/
theorem insertTxWrite_frame (db : DB) (tid : Nat) (key : String) (v : List Nat)
    (ibw : Bool) (rv : Option Nat) :
    (db.insertTxWrite tid key v ibw rv).blocks = db.blocks
    ∧ (db.insertTxWrite tid key v ibw rv).transactions = db.transactions
    ∧ (db.insertTxWrite tid key v ibw rv).txNamespaces = db.txNamespaces
    ∧ (db.insertTxWrite tid key v ibw rv).txReads = db.txReads
    ∧ (db.insertTxWrite tid key v ibw rv).txWrites.length = db.txWrites.length + 1
    ∧ (db.insertTxWrite tid key v ibw rv).txEndorsements = db.txEndorsements
    ∧ (db.insertTxWrite tid key v ibw rv).namespacePolicies = db.namespacePolicies
    ∧ (db.insertTxWrite tid key v ibw rv).nextTransactionID = db.nextTransactionID
    ∧ (db.insertTxWrite tid key v ibw rv).nextTxNamespaceID = db.nextTxNamespaceID
    ∧ (db.insertTxWrite tid key v ibw rv).trace = db.trace ++ [Stmt.insertTxWrite] := by
  unfold DB.insertTxWrite
  simp

/-- `findTx` depends only on the transactions table. -/
theorem findTx_congr (db db' : DB) (h : db.transactions = db'.transactions)
    (bn tn : Nat) : findTx db bn tn = findTx db' bn tn := by
  unfold findTx
  rw [h]

/-- `findTxNs` depends only on the tx_namespaces table. -/
theorem findTxNs_congr (db db' : DB) (h : db.txNamespaces = db'.txNamespaces)
    (tid : Nat) (ns : String) : findTxNs db tid ns = findTxNs db' tid ns := by
  unfold findTxNs
  rw [h]

/-- `findPolicy` depends only on the namespace_policies table. -/
theorem findPolicy_congr (db db' : DB) (h : db.namespacePolicies = db'.namespacePolicies)
    (ns : String) (ver : Nat) : findPolicy db ns ver = findPolicy db' ns ver := by
  unfold findPolicy
  rw [h]

/-- `hasBlock` depends only on the blocks table. -/
theorem hasBlock_congr (db db' : DB) (h : db.blocks = db'.blocks) (bn : Nat) :
    hasBlock db bn = hasBlock db' bn := by
  unfold hasBlock
  rw [h]

/-- The reads loop appends exactly one row per record and touches no other
table. -/
theorem insertReadsLoop_spec (cache : List ((Nat × Nat × String) × Nat)) :
    ∀ (l : List ReadRecord) (db : DB),
    (insertReadsLoop db cache l).blocks = db.blocks
    ∧ (insertReadsLoop db cache l).transactions = db.transactions
    ∧ (insertReadsLoop db cache l).txNamespaces = db.txNamespaces
    ∧ (insertReadsLoop db cache l).txReads.length = db.txReads.length + l.length
    ∧ (insertReadsLoop db cache l).txWrites = db.txWrites
    ∧ (insertReadsLoop db cache l).txEndorsements = db.txEndorsements
    ∧ (insertReadsLoop db cache l).namespacePolicies = db.namespacePolicies
    ∧ (insertReadsLoop db cache l).nextTransactionID = db.nextTransactionID
    ∧ (insertReadsLoop db cache l).nextTxNamespaceID = db.nextTxNamespaceID
    ∧ (insertReadsLoop db cache l).trace
        = db.trace ++ List.replicate l.length Stmt.insertTxRead := by
  intro l
  induction l with
  | nil => intro db; simp [insertReadsLoop]
  | cons r rest ih =>
    intro db
    unfold insertReadsLoop
    obtain ⟨i1, i2, i3, i4, i5, i6, i7, i8, i9, i10⟩ :=
      insertTxRead_frame db ((cache.lookup (r.blockNum, r.txNum, r.nsID)).getD 0)
        r.key r.version r.isReadWrite
    obtain ⟨j1, j2, j3, j4, j5, j6, j7, j8, j9, j10⟩ :=
      ih (db.insertTxRead ((cache.lookup (r.blockNum, r.txNum, r.nsID)).getD 0)
        r.key r.version r.isReadWrite)
    refine ⟨by rw [j1, i1], by rw [j2, i2], by rw [j3, i3], ?_,
      by rw [j5, i5], by rw [j6, i6], by rw [j7, i7], by rw [j8, i8], by rw [j9, i9], ?_⟩
    · rw [j4, i4]
      simp [Nat.add_assoc, Nat.add_comm 1 rest.length]
    · rw [j10, i10]
      simp [List.replicate_succ, List.append_assoc]

/-- The endorsements loop appends exactly one row per record. -/
theorem insertEndorsementsLoop_spec (cache : List ((Nat × Nat × String) × Nat)) :
    ∀ (l : List EndorsementRecord) (db : DB),
    (insertEndorsementsLoop db cache l).blocks = db.blocks
    ∧ (insertEndorsementsLoop db cache l).transactions = db.transactions
    ∧ (insertEndorsementsLoop db cache l).txNamespaces = db.txNamespaces
    ∧ (insertEndorsementsLoop db cache l).txReads = db.txReads
    ∧ (insertEndorsementsLoop db cache l).txEndorsements.length
        = db.txEndorsements.length + l.length
    ∧ (insertEndorsementsLoop db cache l).txWrites = db.txWrites
    ∧ (insertEndorsementsLoop db cache l).namespacePolicies = db.namespacePolicies
    ∧ (insertEndorsementsLoop db cache l).nextTransactionID = db.nextTransactionID
    ∧ (insertEndorsementsLoop db cache l).nextTxNamespaceID = db.nextTxNamespaceID
    ∧ (insertEndorsementsLoop db cache l).trace
        = db.trace ++ List.replicate l.length Stmt.insertTxEndorsement := by
  intro l
  induction l with
  | nil => intro db; simp [insertEndorsementsLoop]
  | cons e rest ih =>
    intro db
    unfold insertEndorsementsLoop
    obtain ⟨i1, i2, i3, i4, i5, i6, i7, i8, i9, i10⟩ :=
      insertTxEndorsement_frame db ((cache.lookup (e.blockNum, e.txNum, e.nsID)).getD 0)
        e.endorsement e.mspID e.identity
    obtain ⟨j1, j2, j3, j4, j5, j6, j7, j8, j9, j10⟩ :=
      ih (db.insertTxEndorsement ((cache.lookup (e.blockNum, e.txNum, e.nsID)).getD 0)
        e.endorsement e.mspID e.identity)
    refine ⟨by rw [j1, i1], by rw [j2, i2], by rw [j3, i3], by rw [j4, i4], ?_,
      by rw [j6, i6], by rw [j7, i7], by rw [j8, i8], by rw [j9, i9], ?_⟩
    · rw [j5, i5]
      simp [Nat.add_assoc, Nat.add_comm 1 rest.length]
    · rw [j10, i10]
      simp [List.replicate_succ, List.append_assoc]

/-- The writes loop appends exactly one row per record. -/
theorem insertWritesLoop_spec (cache : List ((Nat × Nat × String) × Nat)) :
    ∀ (l : List WriteRecord) (db : DB),
    (insertWritesLoop db cache l).blocks = db.blocks
    ∧ (insertWritesLoop db cache l).transactions = db.transactions
    ∧ (insertWritesLoop db cache l).txNamespaces = db.txNamespaces
    ∧ (insertWritesLoop db cache l).txReads = db.txReads
    ∧ (insertWritesLoop db cache l).txWrites.length = db.txWrites.length + l.length
    ∧ (insertWritesLoop db cache l).txEndorsements = db.txEndorsements
    ∧ (insertWritesLoop db cache l).namespacePolicies = db.namespacePolicies
    ∧ (insertWritesLoop db cache l).nextTransactionID = db.nextTransactionID
    ∧ (insertWritesLoop db cache l).nextTxNamespaceID = db.nextTxNamespaceID
    ∧ (insertWritesLoop db cache l).trace
        = db.trace ++ List.replicate l.length Stmt.insertTxWrite := by
  intro l
  induction l with
  | nil => intro db; simp [insertWritesLoop]
  | cons w rest ih =>
    intro db
    unfold insertWritesLoop
    obtain ⟨i1, i2, i3, i4, i5, i6, i7, i8, i9, i10⟩ :=
      insertTxWrite_frame db ((cache.lookup (w.blockNum, w.txNum, w.nsName)).getD 0)
        w.key w.value w.isBlindWrite w.readVersion
    obtain ⟨j1, j2, j3, j4, j5, j6, j7, j8, j9, j10⟩ :=
      ih (db.insertTxWrite ((cache.lookup (w.blockNum, w.txNum, w.nsName)).getD 0)
        w.key w.value w.isBlindWrite w.readVersion)
    refine ⟨by rw [j1, i1], by rw [j2, i2], by rw [j3, i3], by rw [j4, i4], ?_,
      by rw [j6, i6], by rw [j7, i7], by rw [j8, i8], by rw [j9, i9], ?_⟩
    · rw [j5, i5]
      simp [Nat.add_assoc, Nat.add_comm 1 rest.length]
    · rw [j10, i10]
      simp [List.replicate_succ, List.append_assoc]

/-- The policies loop touches only the namespace_policies table, issuing
one upsert per record with a non-empty JSON payload. -/
theorem upsertPoliciesLoop_frame :
    ∀ (l : List NamespacePolicyRecord) (db : DB),
    (upsertPoliciesLoop db l).blocks = db.blocks
    ∧ (upsertPoliciesLoop db l).transactions = db.transactions
    ∧ (upsertPoliciesLoop db l).txNamespaces = db.txNamespaces
    ∧ (upsertPoliciesLoop db l).txReads = db.txReads
    ∧ (upsertPoliciesLoop db l).txWrites = db.txWrites
    ∧ (upsertPoliciesLoop db l).txEndorsements = db.txEndorsements
    ∧ (upsertPoliciesLoop db l).nextTransactionID = db.nextTransactionID
    ∧ (upsertPoliciesLoop db l).nextTxNamespaceID = db.nextTxNamespaceID
    ∧ (upsertPoliciesLoop db l).trace
        = db.trace ++ List.replicate (l.countP (fun p => !(p.policyJSON.length == 0)))
            Stmt.upsertNamespacePolicy := by
  intro l
  induction l with
  | nil => intro db; simp [upsertPoliciesLoop]
  | cons p rest ih =>
    intro db
    unfold upsertPoliciesLoop
    by_cases hc : p.policyJSON.length == 0
    · rw [if_pos hc]
      obtain ⟨j1, j2, j3, j4, j5, j6, j7, j8, j9⟩ := ih db
      have hcount : (p :: rest).countP (fun p => !(p.policyJSON.length == 0))
          = rest.countP (fun p => !(p.policyJSON.length == 0)) := by
        rw [List.countP_cons]
        simp [hc]
      exact ⟨j1, j2, j3, j4, j5, j6, j7, j8, by rw [j9, hcount]⟩
    · rw [if_neg hc]
      obtain ⟨i1, i2, i3, i4, i5, i6, i7, i8, i9⟩ :=
        upsertNamespacePolicy_frame db p.nsName p.version p.policyJSON
      obtain ⟨j1, j2, j3, j4, j5, j6, j7, j8, j9⟩ :=
        ih (db.upsertNamespacePolicy p.nsName p.version p.policyJSON)
      refine ⟨by rw [j1, i1], by rw [j2, i2], by rw [j3, i3], by rw [j4, i4],
        by rw [j5, i5], by rw [j6, i6], by rw [j7, i7], by rw [j8, i8], ?_⟩
      rw [j9, i9]
      have hcount : (p :: rest).countP (fun p => !(p.policyJSON.length == 0))
          = rest.countP (fun p => !(p.policyJSON.length == 0)) + 1 := by
        rw [List.countP_cons]
        simp [hc]
      rw [hcount]
      simp [List.replicate_succ, List.append_assoc, Nat.add_comm]
      simp [List.replicate_add]

/-- After the policies loop, every record with a non-empty payload has its
key present in the table. -/
theorem upsertPoliciesLoop_present :
    ∀ (l : List NamespacePolicyRecord) (db : DB) (p : NamespacePolicyRecord),
      p ∈ l → ¬(p.policyJSON.length = 0) →
      (findPolicy (upsertPoliciesLoop db l) p.nsName p.version).isSome = true := by
  intro l
  induction l with
  | nil => intro db p hp; simp at hp
  | cons q rest ih =>
    intro db p hp hne
    rcases List.mem_cons.mp hp with rfl | hp'
    · unfold upsertPoliciesLoop
      have hc : ¬(p.policyJSON.length == 0) = true := by
        simp [hne]
      rw [if_neg hc]
      -- key present after the head upsert, preserved through the rest
      have hpresent := upsertNamespacePolicy_key_present db p.nsName p.version p.policyJSON
      revert hpresent
      generalize db.upsertNamespacePolicy p.nsName p.version p.policyJSON = db1
      intro hpresent
      clear hc hne hp ih
      induction rest generalizing db1 with
      | nil => simpa [upsertPoliciesLoop] using hpresent
      | cons q' rest' ih' =>
        unfold upsertPoliciesLoop
        by_cases hc' : q'.policyJSON.length == 0
        · rw [if_pos hc']
          exact ih' db1 hpresent
        · rw [if_neg hc']
          exact ih' _ (upsertNamespacePolicy_key_stable db1 q'.nsName q'.version
            q'.policyJSON p.nsName p.version hpresent)
    · unfold upsertPoliciesLoop
      by_cases hc : q.policyJSON.length == 0
      · rw [if_pos hc]
        exact ih db p hp' hne
      · rw [if_neg hc]
        exact ih _ p hp' hne

/-- When every non-empty record's key is already present, the policies loop
leaves the table length unchanged. -/
theorem upsertPoliciesLoop_len :
    ∀ (l : List NamespacePolicyRecord) (db : DB),
      (∀ p ∈ l, ¬(p.policyJSON.length = 0) →
        (findPolicy db p.nsName p.version).isSome = true) →
      (upsertPoliciesLoop db l).namespacePolicies.length
        = db.namespacePolicies.length := by
  intro l
  induction l with
  | nil => intro db _; simp [upsertPoliciesLoop]
  | cons p rest ih =>
    intro db hall
    unfold upsertPoliciesLoop
    by_cases hc : p.policyJSON.length == 0
    · rw [if_pos hc]
      exact ih db (fun q hq => hall q (List.mem_cons_of_mem _ hq))
    · rw [if_neg hc]
      have hne : ¬(p.policyJSON.length = 0) := by
        simpa using hc
      have hpres := hall p (List.mem_cons_self _ _) hne
      have hlen := (upsertNamespacePolicy_conflict db p.nsName p.version p.policyJSON).1 hpres
      rw [ih _ ?_, hlen]
      intro q hq hqne
      exact upsertNamespacePolicy_key_stable db p.nsName p.version p.policyJSON
        q.nsName q.version (hall q (List.mem_cons_of_mem _ hq) hqne)

/-- The tx_namespaces loop touches only its table and counter, issuing one
insert per record. -/
theorem insertTxNamespacesLoop_frame (txIDCache : List ((Nat × Nat) × Nat)) :
    ∀ (l : List TxNamespaceRecord) (db : DB) (nsCache : List ((Nat × Nat × String) × Nat)),
    (insertTxNamespacesLoop db txIDCache nsCache l).1.blocks = db.blocks
    ∧ (insertTxNamespacesLoop db txIDCache nsCache l).1.transactions = db.transactions
    ∧ (insertTxNamespacesLoop db txIDCache nsCache l).1.txReads = db.txReads
    ∧ (insertTxNamespacesLoop db txIDCache nsCache l).1.txWrites = db.txWrites
    ∧ (insertTxNamespacesLoop db txIDCache nsCache l).1.txEndorsements = db.txEndorsements
    ∧ (insertTxNamespacesLoop db txIDCache nsCache l).1.namespacePolicies
        = db.namespacePolicies
    ∧ (insertTxNamespacesLoop db txIDCache nsCache l).1.nextTransactionID
        = db.nextTransactionID
    ∧ (insertTxNamespacesLoop db txIDCache nsCache l).1.trace
        = db.trace ++ List.replicate l.length Stmt.insertTxNamespace := by
  intro l
  induction l with
  | nil => intro db nsCache; simp [insertTxNamespacesLoop]
  | cons txNs rest ih =>
    intro db nsCache
    unfold insertTxNamespacesLoop
    obtain ⟨i1, i2, i3, i4, i5, i6, i7, i8⟩ :=
      insertTxNamespace_frame db ((txIDCache.lookup (txNs.blockNum, txNs.txNum)).getD 0)
        txNs.nsID txNs.nsVersion
    obtain ⟨j1, j2, j3, j4, j5, j6, j7, j8⟩ := ih
      (db.insertTxNamespace ((txIDCache.lookup (txNs.blockNum, txNs.txNum)).getD 0)
        txNs.nsID txNs.nsVersion).2
      (((txNs.blockNum, txNs.txNum, txNs.nsID),
        (db.insertTxNamespace ((txIDCache.lookup (txNs.blockNum, txNs.txNum)).getD 0)
          txNs.nsID txNs.nsVersion).1) :: nsCache)
    refine ⟨by rw [j1, i1], by rw [j2, i2], by rw [j3, i3], by rw [j4, i4],
      by rw [j5, i5], by rw [j6, i6], by rw [j7, i7], ?_⟩
    rw [j8, i8]
    simp [List.replicate_succ, List.append_assoc]

/-- Namespace keys stay present through the tx_namespaces loop. -/
theorem insertTxNamespacesLoop_stable (txIDCache : List ((Nat × Nat) × Nat)) :
    ∀ (l : List TxNamespaceRecord) (db : DB) (nsCache : List ((Nat × Nat × String) × Nat))
      (tid : Nat) (ns : String), (findTxNs db tid ns).isSome = true →
      (findTxNs (insertTxNamespacesLoop db txIDCache nsCache l).1 tid ns).isSome = true := by
  intro l
  induction l with
  | nil => intro db nsCache tid ns h; simpa [insertTxNamespacesLoop] using h
  | cons q rest ih =>
    intro db nsCache tid ns h
    unfold insertTxNamespacesLoop
    exact ih _ _ tid ns (insertTxNamespace_key_stable db
      ((txIDCache.lookup (q.blockNum, q.txNum)).getD 0) q.nsID q.nsVersion tid ns h)

/-- After the tx_namespaces loop, every record's key — with the transaction
id it resolves through the cache — is present in the table. -/
theorem insertTxNamespacesLoop_present (txIDCache : List ((Nat × Nat) × Nat)) :
    ∀ (l : List TxNamespaceRecord) (db : DB) (nsCache : List ((Nat × Nat × String) × Nat))
      (txNs : TxNamespaceRecord), txNs ∈ l →
      (findTxNs (insertTxNamespacesLoop db txIDCache nsCache l).1
        ((txIDCache.lookup (txNs.blockNum, txNs.txNum)).getD 0) txNs.nsID).isSome = true := by
  intro l
  induction l with
  | nil => intro db nsCache txNs hmem; simp at hmem
  | cons q rest ih =>
    intro db nsCache txNs hmem
    rcases List.mem_cons.mp hmem with rfl | hmem'
    · unfold insertTxNamespacesLoop
      exact insertTxNamespacesLoop_stable txIDCache rest _ _ _ _
        (insertTxNamespace_key_present db
          ((txIDCache.lookup (txNs.blockNum, txNs.txNum)).getD 0) txNs.nsID txNs.nsVersion)
    · unfold insertTxNamespacesLoop
      exact ih _ _ txNs hmem'

/-- When every record's resolved key is already present, the tx_namespaces
loop keeps the table length. -/
theorem insertTxNamespacesLoop_len (txIDCache : List ((Nat × Nat) × Nat)) :
    ∀ (l : List TxNamespaceRecord) (db : DB) (nsCache : List ((Nat × Nat × String) × Nat)),
      (∀ txNs ∈ l, (findTxNs db
        ((txIDCache.lookup (txNs.blockNum, txNs.txNum)).getD 0) txNs.nsID).isSome = true) →
      (insertTxNamespacesLoop db txIDCache nsCache l).1.txNamespaces.length
        = db.txNamespaces.length := by
  intro l
  induction l with
  | nil => intro db nsCache _; simp [insertTxNamespacesLoop]
  | cons q rest ih =>
    intro db nsCache hall
    unfold insertTxNamespacesLoop
    have hq := hall q (List.mem_cons_self _ _)
    obtain ⟨r, hr⟩ := Option.isSome_iff_exists.mp hq
    have hlen := (insertTxNamespace_conflict db
      ((txIDCache.lookup (q.blockNum, q.txNum)).getD 0) q.nsID q.nsVersion).1 r hr
    rw [ih _ _ ?_, hlen.2]
    intro txNs hmem
    exact insertTxNamespace_key_stable db
      ((txIDCache.lookup (q.blockNum, q.txNum)).getD 0) q.nsID q.nsVersion _ _
      (hall txNs (List.mem_cons_of_mem _ hmem))

/-- Agreement between the in-transaction cache and the transactions table:
every cached id is the id of the row found under the cached key. -/
def AG (db : DB) (cache : List ((Nat × Nat) × Nat)) : Prop :=
  ∀ k id, cache.lookup k = some id →
    ∃ r, findTx db k.1 k.2 = some r ∧ r.id = id

/-- Surrogate-id stability between two store states: every transaction key
found in the first is found in the second with the same id. -/
def TxIdStable (db db' : DB) : Prop :=
  ∀ bn tn r, findTx db bn tn = some r →
    ∃ r', findTx db' bn tn = some r' ∧ r'.id = r.id

/-- The transactions loop, on success: ids are stable, cache agreement is
preserved, every processed record's key ends up cached, and cached keys are
never dropped. -/
theorem txLoop_master :
    ∀ (l : List TxNamespaceRecord) (db : DB) (cache : List ((Nat × Nat) × Nat))
      (db' : DB) (cache' : List ((Nat × Nat) × Nat)),
    insertTransactionsLoop db cache l = Except.ok (db', cache') →
    TxIdStable db db'
    ∧ (AG db cache → AG db' cache')
    ∧ (∀ txNs ∈ l, (cache'.lookup (txNs.blockNum, txNs.txNum)).isSome = true)
    ∧ (∀ k, (cache.lookup k).isSome = true → (cache'.lookup k).isSome = true) := by
  intro l
  induction l with
  | nil =>
    intro db cache db' cache' h
    unfold insertTransactionsLoop at h
    obtain ⟨rfl, rfl⟩ : db = db' ∧ cache = cache' := by
      have := Except.ok.inj h
      exact ⟨congrArg Prod.fst this, congrArg Prod.snd this⟩
    refine ⟨fun bn tn r hr => ⟨r, hr, rfl⟩, fun hag => hag, by simp, fun k hk => hk⟩
  | cons txNs rest ih =>
    intro db cache db' cache' h
    unfold insertTransactionsLoop at h
    cases hl : cache.lookup (txNs.blockNum, txNs.txNum) with
    | some id0 =>
      rw [hl] at h
      obtain ⟨hst, hag, hcov, hmono⟩ := ih db cache db' cache' h
      refine ⟨hst, hag, ?_, hmono⟩
      intro q hq
      rcases List.mem_cons.mp hq with rfl | hq'
      · exact hmono _ (by rw [hl]; rfl)
      · exact hcov q hq'
    | none =>
      rw [hl] at h
      cases hhex : hexDecode txNs.txID with
      | none => rw [hhex] at h; exact absurd h (by simp)
      | some txIDBytes =>
        rw [hhex] at h
        obtain ⟨hst, hag, hcov, hmono⟩ := ih _ _ db' cache' h
        have hop := insertTransaction_key_present db txNs.blockNum txNs.txNum
          txIDBytes txNs.validationCode
        refine ⟨?_, ?_, ?_, ?_⟩
        · intro bn tn r hr
          obtain ⟨r1, hr1, hid1⟩ := insertTransaction_id_stable db txNs.blockNum txNs.txNum
            txIDBytes txNs.validationCode bn tn r hr
          obtain ⟨r2, hr2, hid2⟩ := hst bn tn r1 hr1
          exact ⟨r2, hr2, by rw [hid2, hid1]⟩
        · intro hagdb
          refine hag ?_
          intro k id hk
          rw [List.lookup_cons] at hk
          by_cases hkk : k = (txNs.blockNum, txNs.txNum)
          · subst hkk
            simp only [beq_self_eq_true] at hk
            obtain ⟨r, hr, hid⟩ := hop
            exact ⟨r, hr, by rw [hid, Option.some.inj hk]⟩
          · have hne : (k == (txNs.blockNum, txNs.txNum)) = false := by
              simp [hkk]
            rw [hne] at hk
            obtain ⟨r, hr, hid⟩ := hagdb k id hk
            obtain ⟨r', hr', hid'⟩ := insertTransaction_id_stable db txNs.blockNum txNs.txNum
              txIDBytes txNs.validationCode k.1 k.2 r hr
            exact ⟨r', hr', by rw [hid', hid]⟩
        · intro q hq
          rcases List.mem_cons.mp hq with rfl | hq'
          · refine hmono _ ?_
            rw [List.lookup_cons]
            simp
          · exact hcov q hq'
        · intro k hk
          refine hmono k ?_
          rw [List.lookup_cons]
          cases hkc : k == (txNs.blockNum, txNs.txNum) with
          | true => rfl
          | false => simpa using hk

/-- The transactions loop, on success, touches only the transactions table,
its counter and the trace. -/
theorem txLoop_frame :
    ∀ (l : List TxNamespaceRecord) (db : DB) (cache : List ((Nat × Nat) × Nat))
      (db' : DB) (cache' : List ((Nat × Nat) × Nat)),
    insertTransactionsLoop db cache l = Except.ok (db', cache') →
    db'.blocks = db.blocks
    ∧ db'.txNamespaces = db.txNamespaces
    ∧ db'.txReads = db.txReads
    ∧ db'.txWrites = db.txWrites
    ∧ db'.txEndorsements = db.txEndorsements
    ∧ db'.namespacePolicies = db.namespacePolicies
    ∧ db'.nextTxNamespaceID = db.nextTxNamespaceID := by
  intro l
  induction l with
  | nil =>
    intro db cache db' cache' h
    unfold insertTransactionsLoop at h
    obtain rfl : db = db' := congrArg Prod.fst (Except.ok.inj h)
    exact ⟨rfl, rfl, rfl, rfl, rfl, rfl, rfl⟩
  | cons txNs rest ih =>
    intro db cache db' cache' h
    unfold insertTransactionsLoop at h
    cases hl : cache.lookup (txNs.blockNum, txNs.txNum) with
    | some id0 =>
      rw [hl] at h
      exact ih db cache db' cache' h
    | none =>
      rw [hl] at h
      cases hhex : hexDecode txNs.txID with
      | none => rw [hhex] at h; exact absurd h (by simp)
      | some txIDBytes =>
        rw [hhex] at h
        obtain ⟨j1, j2, j3, j4, j5, j6, j7⟩ := ih _ _ db' cache' h
        obtain ⟨i1, i2, i3, i4, i5, i6, i7, _⟩ := insertTransaction_frame db
          txNs.blockNum txNs.txNum txIDBytes txNs.validationCode
        exact ⟨by rw [j1, i1], by rw [j2, i2], by rw [j3, i3], by rw [j4, i4],
          by rw [j5, i5], by rw [j6, i6], by rw [j7, i7]⟩

/-- When every record's key is already in the transactions table, the loop
hits the conflict clause everywhere and the table length is unchanged. -/
theorem txLoop_len :
    ∀ (l : List TxNamespaceRecord) (db : DB) (cache : List ((Nat × Nat) × Nat))
      (db' : DB) (cache' : List ((Nat × Nat) × Nat)),
    insertTransactionsLoop db cache l = Except.ok (db', cache') →
    (∀ txNs ∈ l, (findTx db txNs.blockNum txNs.txNum).isSome = true) →
    db'.transactions.length = db.transactions.length := by
  intro l
  induction l with
  | nil =>
    intro db cache db' cache' h _
    unfold insertTransactionsLoop at h
    obtain rfl : db = db' := congrArg Prod.fst (Except.ok.inj h)
    rfl
  | cons txNs rest ih =>
    intro db cache db' cache' h hall
    unfold insertTransactionsLoop at h
    cases hl : cache.lookup (txNs.blockNum, txNs.txNum) with
    | some id0 =>
      rw [hl] at h
      exact ih db cache db' cache' h (fun q hq => hall q (List.mem_cons_of_mem _ hq))
    | none =>
      rw [hl] at h
      cases hhex : hexDecode txNs.txID with
      | none => rw [hhex] at h; exact absurd h (by simp)
      | some txIDBytes =>
        rw [hhex] at h
        have hq := hall txNs (List.mem_cons_self _ _)
        obtain ⟨r, hr⟩ := Option.isSome_iff_exists.mp hq
        have hlen := ((insertTransaction_conflict db txNs.blockNum txNs.txNum
          txIDBytes txNs.validationCode).1 r hr).2
        have hrest := ih _ _ db' cache' h ?_
        · rw [hrest, hlen]
        · intro q hq'
          obtain ⟨r0, hr0⟩ := Option.isSome_iff_exists.mp
            (hall q (List.mem_cons_of_mem _ hq'))
          obtain ⟨r1, hr1, _⟩ := insertTransaction_id_stable db txNs.blockNum txNs.txNum
            txIDBytes txNs.validationCode q.blockNum q.txNum r0 hr0
          rw [hr1]
          rfl

/-- Success of the transactions loop depends only on the cache's key set,
not on the store: a successful run transfers to any other store. -/
theorem txLoop_transfer :
    ∀ (l : List TxNamespaceRecord) (cacheA cacheB : List ((Nat × Nat) × Nat))
      (dbA dbB dbA' : DB) (cacheA' : List ((Nat × Nat) × Nat)),
    insertTransactionsLoop dbA cacheA l = Except.ok (dbA', cacheA') →
    (∀ k, (cacheA.lookup k).isSome = (cacheB.lookup k).isSome) →
    ∃ dbB' cacheB', insertTransactionsLoop dbB cacheB l = Except.ok (dbB', cacheB') := by
  intro l
  induction l with
  | nil =>
    intro cacheA cacheB dbA dbB dbA' cacheA' _ _
    exact ⟨dbB, cacheB, rfl⟩
  | cons txNs rest ih =>
    intro cacheA cacheB dbA dbB dbA' cacheA' h hkeys
    unfold insertTransactionsLoop at h ⊢
    cases hl : cacheA.lookup (txNs.blockNum, txNs.txNum) with
    | some id0 =>
      rw [hl] at h
      have hB : (cacheB.lookup (txNs.blockNum, txNs.txNum)).isSome = true := by
        rw [← hkeys]
        rw [hl]
        rfl
      obtain ⟨idB, hidB⟩ := Option.isSome_iff_exists.mp hB
      rw [hidB]
      exact ih cacheA cacheB dbA dbB dbA' cacheA' h hkeys
    | none =>
      rw [hl] at h
      have hB : cacheB.lookup (txNs.blockNum, txNs.txNum) = none := by
        have := hkeys (txNs.blockNum, txNs.txNum)
        rw [hl] at this
        cases hx : cacheB.lookup (txNs.blockNum, txNs.txNum) with
        | none => rfl
        | some v => rw [hx] at this; simp at this
      rw [hB]
      cases hhex : hexDecode txNs.txID with
      | none => rw [hhex] at h; exact absurd h (by simp)
      | some txIDBytes =>
        rw [hhex] at h
        refine ih _ _ _ _ dbA' cacheA' h ?_
        intro k
        rw [List.lookup_cons, List.lookup_cons]
        cases hkc : k == (txNs.blockNum, txNs.txNum) with
        | true => rfl
        | false => exact hkeys k

/-- C1 (amended): replaying the same ProcessedBlock against the store it
was just committed to succeeds and leaves the blocks, transactions,
tx_namespaces and namespace_policies row counts unchanged — the conflict
clauses on those tables absorb the replay — while each child table grows by
its record-list length again: tx_reads by |reads|, tx_writes by |writes|,
tx_endorsements by |endorsements|. -/
theorem write_idempotent_parents (db : DB) (pb : ProcessedBlock) (P : ParsedBlockData)
    (db1 : DB) (hdata : pb.data = BlockPayload.parsed P)
    (h1 : WriteProcessedBlock db (some pb) = Except.ok db1) :
    ∃ db2, WriteProcessedBlock db1 (some pb) = Except.ok db2
      ∧ db2.blocks.length = db1.blocks.length
      ∧ db2.transactions.length = db1.transactions.length
      ∧ db2.txNamespaces.length = db1.txNamespaces.length
      ∧ db2.namespacePolicies.length = db1.namespacePolicies.length
      ∧ db2.txReads.length = db1.txReads.length + P.reads.length
      ∧ db2.txWrites.length = db1.txWrites.length + P.writes.length
      ∧ db2.txEndorsements.length = db1.txEndorsements.length + P.endorsements.length := by
  unfold WriteProcessedBlock at h1
  simp only [] at h1
  rw [hdata] at h1
  simp only [] at h1
  cases hloop : insertTransactionsLoop
      (db.insertBlock pb.blockInfo.number pb.txns pb.blockInfo.previousHash
        pb.blockInfo.dataHash) [] P.txNamespaces with
  | error msg => rw [hloop] at h1; exact absurd h1 (by simp)
  | ok pr =>
    obtain ⟨dbB, cache1⟩ := pr
    rw [hloop] at h1
    simp only [] at h1
    obtain rfl := (Except.ok.inj h1).symm
    clear h1
    set dbA := db.insertBlock pb.blockInfo.number pb.txns pb.blockInfo.previousHash
      pb.blockInfo.dataHash with hdbA
    set prod1 := insertTxNamespacesLoop dbB cache1 [] P.txNamespaces with hprod1
    set dbD := insertReadsLoop prod1.1 prod1.2 P.reads with hdbD
    set dbE := insertEndorsementsLoop dbD prod1.2 P.endorsements with hdbE
    set dbF := upsertPoliciesLoop dbE P.policies with hdbF
    set db1 := insertWritesLoop dbF prod1.2 P.writes with hdb1v
    -- run-1 step characterizations
    obtain ⟨a1, a2, a3, a4, a5, a6, a7, a8, a9⟩ := insertBlock_frame db pb.blockInfo.number
      pb.txns pb.blockInfo.previousHash pb.blockInfo.dataHash
    obtain ⟨b1, b2, b3, b4, b5, b6, b7⟩ := txLoop_frame P.txNamespaces dbA [] dbB cache1 hloop
    obtain ⟨c1, c2, c3, c4, c5, c6, c7, c8⟩ :=
      insertTxNamespacesLoop_frame cache1 P.txNamespaces dbB []
    obtain ⟨d1, d2, d3, d4, d5, d6, d7, d8, d9, d10⟩ :=
      insertReadsLoop_spec prod1.2 P.reads prod1.1
    obtain ⟨e1, e2, e3, e4, e5, e6, e7, e8, e9, e10⟩ :=
      insertEndorsementsLoop_spec prod1.2 P.endorsements dbD
    obtain ⟨f1, f2, f3, f4, f5, f6, f7, f8, f9⟩ := upsertPoliciesLoop_frame P.policies dbE
    obtain ⟨g1, g2, g3, g4, g5, g6, g7, g8, g9, g10⟩ :=
      insertWritesLoop_spec prod1.2 P.writes dbF
    rw [← hdbD] at d1 d2 d3 d4 d5 d6 d7 d8 d9 d10
    rw [← hdbE] at e1 e2 e3 e4 e5 e6 e7 e8 e9 e10
    rw [← hdbF] at f1 f2 f3 f4 f5 f6 f7 f8 f9
    rw [← hdb1v] at g1 g2 g3 g4 g5 g6 g7 g8 g9 g10
    -- run-1 table equalities up to db1
    have hblocks1 : db1.blocks = dbA.blocks := by rw [g1, f1, e1, d1, c1, b1]
    have htx1 : db1.transactions = dbB.transactions := by rw [g2, f2, e2, d2, c2]
    have htxA : dbA.transactions = db.transactions := a1
    have hns1 : db1.txNamespaces = prod1.1.txNamespaces := by rw [g3, f3, e3, d3]
    have hpol1 : db1.namespacePolicies = dbF.namespacePolicies := g7
    have hpolE : dbE.namespacePolicies = dbB.namespacePolicies := by rw [e7, d7, c6]
    -- run-1 semantic facts
    have agNil : ∀ dbx : DB, AG dbx ([] : List ((Nat × Nat) × Nat)) := by
      intro dbx k id hk
      simp [List.lookup] at hk
    obtain ⟨hst1, hagf1, hcov1, hmono1⟩ := txLoop_master P.txNamespaces dbA [] dbB cache1 hloop
    have hagB : AG dbB cache1 := hagf1 (agNil dbA)
    have hfindB : ∀ txNs ∈ P.txNamespaces,
        (findTx dbB txNs.blockNum txNs.txNum).isSome = true := by
      intro txNs hmem
      obtain ⟨id1, hid1⟩ := Option.isSome_iff_exists.mp (hcov1 txNs hmem)
      obtain ⟨r, hr, _⟩ := hagB _ id1 hid1
      rw [hr]
      rfl
    have hhasA : hasBlock dbA pb.blockInfo.number = true :=
      (insertBlock_blocks db pb.blockInfo.number pb.txns pb.blockInfo.previousHash
        pb.blockInfo.dataHash).1
    have hhas1 : hasBlock db1 pb.blockInfo.number = true := by
      rw [hasBlock_congr db1 dbA hblocks1]
      exact hhasA
    -- run 2: block insert is a no-op on the blocks table
    set dbA2 := db1.insertBlock pb.blockInfo.number pb.txns pb.blockInfo.previousHash
      pb.blockInfo.dataHash with hdbA2
    have hA2blocks : dbA2.blocks = db1.blocks :=
      (insertBlock_blocks db1 pb.blockInfo.number pb.txns pb.blockInfo.previousHash
        pb.blockInfo.dataHash).2.1 hhas1
    obtain ⟨a1', a2', a3', a4', a5', a6', a7', a8', a9'⟩ := insertBlock_frame db1
      pb.blockInfo.number pb.txns pb.blockInfo.previousHash pb.blockInfo.dataHash
    rw [← hdbA2] at a1' a2' a3' a4' a5' a6' a7' a8' a9'
    -- run 2: the transactions loop succeeds again
    obtain ⟨dbB2, cache2, hloop2⟩ :=
      txLoop_transfer P.txNamespaces [] [] dbA dbA2 dbB cache1 hloop (fun k => rfl)
    obtain ⟨hst2, hagf2, hcov2, hmono2⟩ :=
      txLoop_master P.txNamespaces dbA2 [] dbB2 cache2 hloop2
    have hagB2 : AG dbB2 cache2 := hagf2 (agNil dbA2)
    obtain ⟨b1', b2', b3', b4', b5', b6', b7'⟩ :=
      txLoop_frame P.txNamespaces dbA2 [] dbB2 cache2 hloop2
    have hA2tx : dbA2.transactions = db1.transactions := a1'
    have hfindA2 : ∀ txNs ∈ P.txNamespaces,
        (findTx dbA2 txNs.blockNum txNs.txNum).isSome = true := by
      intro txNs hmem
      rw [findTx_congr dbA2 dbB (by rw [hA2tx, htx1]) txNs.blockNum txNs.txNum]
      exact hfindB txNs hmem
    have hlen2 : dbB2.transactions.length = dbA2.transactions.length :=
      txLoop_len P.txNamespaces dbA2 [] dbB2 cache2 hloop2 hfindA2
    -- cached transaction ids agree between the two runs
    have hidagree : ∀ txNs ∈ P.txNamespaces,
        (cache2.lookup (txNs.blockNum, txNs.txNum)).getD 0
          = (cache1.lookup (txNs.blockNum, txNs.txNum)).getD 0 := by
      intro txNs hmem
      obtain ⟨id1, hid1⟩ := Option.isSome_iff_exists.mp (hcov1 txNs hmem)
      obtain ⟨id2, hid2⟩ := Option.isSome_iff_exists.mp (hcov2 txNs hmem)
      obtain ⟨r1, hr1, hrid1⟩ := hagB _ id1 hid1
      obtain ⟨r3, hr3, hrid3⟩ := hagB2 _ id2 hid2
      have hr1' : findTx dbA2 txNs.blockNum txNs.txNum = some r1 := by
        rw [findTx_congr dbA2 dbB (by rw [hA2tx, htx1])]
        exact hr1
      obtain ⟨r2, hr2, hrid2⟩ := hst2 txNs.blockNum txNs.txNum r1 hr1'
      have : r3 = r2 := Option.some.inj (hr3.symm.trans hr2)
      rw [hid1, hid2]
      show id2 = id1
      rw [← hrid3, this, hrid2, hrid1]
    -- run 2: the namespaces loop hits only conflicts
    set prod2 := insertTxNamespacesLoop dbB2 cache2 [] P.txNamespaces with hprod2
    have hnsB2 : dbB2.txNamespaces = prod1.1.txNamespaces := by
      rw [b2', a2', ← hns1]
    have hnspresent2 : ∀ txNs ∈ P.txNamespaces,
        (findTxNs dbB2 ((cache2.lookup (txNs.blockNum, txNs.txNum)).getD 0)
          txNs.nsID).isSome = true := by
      intro txNs hmem
      rw [hidagree txNs hmem, findTxNs_congr dbB2 prod1.1 hnsB2]
      exact insertTxNamespacesLoop_present cache1 P.txNamespaces dbB [] txNs hmem
    have hnslen2 : prod2.1.txNamespaces.length = dbB2.txNamespaces.length :=
      insertTxNamespacesLoop_len cache2 P.txNamespaces dbB2 [] hnspresent2
    obtain ⟨c1', c2', c3', c4', c5', c6', c7', c8'⟩ :=
      insertTxNamespacesLoop_frame cache2 P.txNamespaces dbB2 []
    rw [← hprod2] at c1' c2' c3' c4' c5' c6' c7' c8'
    -- run 2: remaining loops
    set dbD2 := insertReadsLoop prod2.1 prod2.2 P.reads with hdbD2
    set dbE2 := insertEndorsementsLoop dbD2 prod2.2 P.endorsements with hdbE2
    set dbF2 := upsertPoliciesLoop dbE2 P.policies with hdbF2
    set db2 := insertWritesLoop dbF2 prod2.2 P.writes with hdb2v
    obtain ⟨d1', d2', d3', d4', d5', d6', d7', d8', d9', d10'⟩ :=
      insertReadsLoop_spec prod2.2 P.reads prod2.1
    obtain ⟨e1', e2', e3', e4', e5', e6', e7', e8', e9', e10'⟩ :=
      insertEndorsementsLoop_spec prod2.2 P.endorsements dbD2
    obtain ⟨f1', f2', f3', f4', f5', f6', f7', f8', f9'⟩ :=
      upsertPoliciesLoop_frame P.policies dbE2
    obtain ⟨g1', g2', g3', g4', g5', g6', g7', g8', g9', g10'⟩ :=
      insertWritesLoop_spec prod2.2 P.writes dbF2
    rw [← hdbD2] at d1' d2' d3' d4' d5' d6' d7' d8' d9' d10'
    rw [← hdbE2] at e1' e2' e3' e4' e5' e6' e7' e8' e9' e10'
    rw [← hdbF2] at f1' f2' f3' f4' f5' f6' f7' f8' f9'
    rw [← hdb2v] at g1' g2' g3' g4' g5' g6' g7' g8' g9' g10'
    -- policies of run 2 all conflict
    have hpolE2 : dbE2.namespacePolicies = dbF.namespacePolicies := by
      rw [e7', d7', c6', b6', a6', ← hpol1]
    have hpollen2 : dbF2.namespacePolicies.length = dbE2.namespacePolicies.length := by
      refine upsertPoliciesLoop_len P.policies dbE2 ?_
      intro p hp hne
      rw [findPolicy_congr dbE2 dbF hpolE2]
      exact upsertPoliciesLoop_present P.policies dbE p hp hne
    -- the second write succeeds with the expected result
    have hrun2 : WriteProcessedBlock db1 (some pb) = Except.ok db2 := by
      unfold WriteProcessedBlock
      simp only []
      rw [hdata]
      simp only []
      rw [← hdbA2, hloop2]
    refine ⟨db2, hrun2, ?_, ?_, ?_, ?_, ?_, ?_, ?_⟩
    · rw [g1', f1', e1', d1', c1', b1', hA2blocks]
    · rw [g2', f2', e2', d2', c2']
      rw [hlen2, hA2tx]
    · rw [g3', f3', e3', d3', hnslen2, hnsB2, ← hns1]
    · rw [g7', hpollen2, hpolE2, ← hpol1]
    · rw [g4', f4', e4', d4', c3', b3', a3']
    · rw [g5', f5', e6', d5', c4', b4', a4']
    · rw [g6', f6', e5', d6', c5', b5', a5']

/-- The parsed payload of the block replayed in the C1 witness and
counterexample development: one transaction namespace and one read. -/
def parsedIdemExample : ParsedBlockData :=
  { writes := [], endorsements := [], policies := [],
    reads := [{ blockNum := 7, txNum := 0, nsID := "mycc", key := "k",
                version := some 10, isReadWrite := true }],
    txNamespaces := [{ blockNum := 7, txNum := 0, txID := "ab", nsID := "mycc",
                       nsVersion := 1, validationCode := 1 }] }

/-- The concrete replayed block carrying `parsedIdemExample`. -/
def pbIdemExample : ProcessedBlock :=
  { number := 7, txns := 1,
    blockInfo := { number := 7, previousHash := [1], dataHash := [2] },
    data := BlockPayload.parsed parsedIdemExample }

/-- The store after committing `pbIdemExample` once into the empty store. -/
def dbIdemExample : DB :=
  { blocks := [{ blockNum := 7, txCount := 1, previousHash := [1], dataHash := [2] }],
    transactions := [{ id := 1, blockNum := 7, txNum := 0, txID := [171], validationCode := 1 }],
    txNamespaces := [{ id := 1, transactionID := 1, nsID := "mycc", nsVersion := 1 }],
    txReads := [{ txNamespaceID := 1, key := "k", version := some 10, isReadWrite := true }],
    txWrites := [], txEndorsements := [], namespacePolicies := [],
    nextTransactionID := 2, nextTxNamespaceID := 2,
    trace := [Stmt.insertBlock, Stmt.insertTransaction, Stmt.insertTxNamespace,
              Stmt.insertTxRead] }

/-- Witness for C1's amended theorem at the concrete block. -/
theorem write_idempotent_parents_witness :
    pbIdemExample.data = BlockPayload.parsed parsedIdemExample
    ∧ WriteProcessedBlock emptyDB (some pbIdemExample) = Except.ok dbIdemExample
    ∧ ∃ db2, WriteProcessedBlock dbIdemExample (some pbIdemExample) = Except.ok db2
      ∧ db2.blocks.length = dbIdemExample.blocks.length
      ∧ db2.transactions.length = dbIdemExample.transactions.length
      ∧ db2.txNamespaces.length = dbIdemExample.txNamespaces.length
      ∧ db2.namespacePolicies.length = dbIdemExample.namespacePolicies.length
      ∧ db2.txReads.length = dbIdemExample.txReads.length + parsedIdemExample.reads.length
      ∧ db2.txWrites.length = dbIdemExample.txWrites.length + parsedIdemExample.writes.length
      ∧ db2.txEndorsements.length
          = dbIdemExample.txEndorsements.length + parsedIdemExample.endorsements.length :=
  ⟨rfl, by rfl,
    write_idempotent_parents emptyDB pbIdemExample parsedIdemExample dbIdemExample
      rfl (by rfl)⟩

/-- C1 counterexample: replaying `pbIdemExample` — which carries one read —
adds a second tx_reads row, so the store after two writes is
distinguishable by row counts from the store after one. -/
theorem write_idempotent_counterexample :
    (runWrite emptyDB (some pbIdemExample)).txReads.length = 1
    ∧ (runWrite (runWrite emptyDB (some pbIdemExample))
        (some pbIdemExample)).txReads.length = 2 := by
  decide

/-- C2: a nil input or a payload of the wrong type is rejected with an
`invalidInput` error — issued before the store transaction is begun; every
error result leaves the committed store exactly as it was (rollback); and a
transaction record whose tx_id is not valid hex makes the writer fail with
a post-begin `txError`. -/
theorem write_atomicity :
    (∀ db : DB, WriteProcessedBlock db none
        = Except.error (WriteErr.invalidInput "processed block is nil"))
    ∧ (∀ (db : DB) (pb : ProcessedBlock), pb.data = BlockPayload.other →
        WriteProcessedBlock db (some pb)
          = Except.error
              (WriteErr.invalidInput "processed block Data is not *types.ParsedBlockData"))
    ∧ (∀ (db : DB) (pb : Option ProcessedBlock) (e : WriteErr),
        WriteProcessedBlock db pb = Except.error e → runWrite db pb = db)
    ∧ (∀ (db : DB) (pb : ProcessedBlock) (P : ParsedBlockData)
        (txNs : TxNamespaceRecord) (rest : List TxNamespaceRecord),
        pb.data = BlockPayload.parsed P → P.txNamespaces = txNs :: rest →
        hexDecode txNs.txID = none →
        WriteProcessedBlock db (some pb)
          = Except.error (WriteErr.txError ("failed to decode tx_id " ++ txNs.txID))) := by
  refine ⟨fun db => rfl, ?_, ?_, ?_⟩
  · intro db pb hdata
    unfold WriteProcessedBlock
    simp only []
    rw [hdata]
  · intro db pb e h
    unfold runWrite
    rw [h]
  · intro db pb P txNs rest hdata hns hhex
    unfold WriteProcessedBlock
    simp only []
    rw [hdata]
    simp only []
    rw [hns]
    unfold insertTransactionsLoop
    have hl : ([] : List ((Nat × Nat) × Nat)).lookup (txNs.blockNum, txNs.txNum) = none := rfl
    rw [hl, hhex]

/-- A block whose only transaction record carries an undecodable tx_id. -/
def pbBadHexExample : ProcessedBlock :=
  { number := 6, txns := 1,
    blockInfo := { number := 6, previousHash := [3], dataHash := [4] },
    data := BlockPayload.parsed
      { writes := [], reads := [], endorsements := [], policies := [],
        txNamespaces := [{ blockNum := 6, txNum := 0, txID := "invalid_hex_ZZZ",
                           nsID := "testcc", nsVersion := 1, validationCode := 0 }] } }

/-- Witness for C2 at concrete inputs. -/
theorem write_atomicity_witness :
    WriteProcessedBlock emptyDB none
      = Except.error (WriteErr.invalidInput "processed block is nil")
    ∧ runWrite emptyDB none = emptyDB
    ∧ WriteProcessedBlock emptyDB (some pbBadHexExample)
        = Except.error (WriteErr.txError "failed to decode tx_id invalid_hex_ZZZ")
    ∧ runWrite emptyDB (some pbBadHexExample) = emptyDB := by
  have h1 := write_atomicity.1 emptyDB
  have h4 := write_atomicity.2.2.2 emptyDB pbBadHexExample
    { writes := [], reads := [], endorsements := [], policies := [],
      txNamespaces := [{ blockNum := 6, txNum := 0, txID := "invalid_hex_ZZZ",
                         nsID := "testcc", nsVersion := 1, validationCode := 0 }] }
    { blockNum := 6, txNum := 0, txID := "invalid_hex_ZZZ",
      nsID := "testcc", nsVersion := 1, validationCode := 0 } [] rfl rfl (by rfl)
  exact ⟨h1, write_atomicity.2.2.1 emptyDB none _ h1, h4,
    write_atomicity.2.2.1 emptyDB (some pbBadHexExample) _ h4⟩

/-- Number of first occurrences of `(block_num, tx_num)` keys in a record
list, given the keys already seen: the number of InsertTransaction
statements the writer issues. -/
def countNewTxKeys (seen : List (Nat × Nat)) : List TxNamespaceRecord → Nat
  | [] => 0
  | txNs :: rest =>
    if (txNs.blockNum, txNs.txNum) ∈ seen then countNewTxKeys seen rest
    else countNewTxKeys ((txNs.blockNum, txNs.txNum) :: seen) rest + 1

/-- A cache lookup succeeds exactly when the key is among the cached keys. -/
theorem lookup_isSome_iff (cache : List ((Nat × Nat) × Nat)) (k : Nat × Nat) :
    (cache.lookup k).isSome = true ↔ k ∈ cache.map Prod.fst := by
  induction cache with
  | nil => simp [List.lookup]
  | cons e rest ih =>
    obtain ⟨k0, v0⟩ := e
    rw [List.lookup_cons]
    by_cases hk : k = k0
    · subst hk
      simp
    · have : (k == k0) = false := by simp [hk]
      rw [this]
      simp only [List.map_cons, List.mem_cons]
      rw [ih]
      constructor
      · exact fun h => Or.inr h
      · rintro (h | h)
        · exact absurd h hk
        · exact h

/-- The transactions loop issues exactly one InsertTransaction per
first-occurrence key. -/
theorem txLoop_trace :
    ∀ (l : List TxNamespaceRecord) (db : DB) (cache : List ((Nat × Nat) × Nat))
      (db' : DB) (cache' : List ((Nat × Nat) × Nat)),
    insertTransactionsLoop db cache l = Except.ok (db', cache') →
    db'.trace = db.trace
      ++ List.replicate (countNewTxKeys (cache.map Prod.fst) l) Stmt.insertTransaction := by
  intro l
  induction l with
  | nil =>
    intro db cache db' cache' h
    unfold insertTransactionsLoop at h
    obtain rfl : db = db' := congrArg Prod.fst (Except.ok.inj h)
    simp [countNewTxKeys]
  | cons txNs rest ih =>
    intro db cache db' cache' h
    unfold insertTransactionsLoop at h
    unfold countNewTxKeys
    cases hl : cache.lookup (txNs.blockNum, txNs.txNum) with
    | some id0 =>
      rw [hl] at h
      have hmem : (txNs.blockNum, txNs.txNum) ∈ cache.map Prod.fst := by
        rw [← lookup_isSome_iff]
        rw [hl]
        rfl
      rw [if_pos hmem]
      exact ih db cache db' cache' h
    | none =>
      rw [hl] at h
      have hmem : ¬((txNs.blockNum, txNs.txNum) ∈ cache.map Prod.fst) := by
        rw [← lookup_isSome_iff, hl]
        simp
      rw [if_neg hmem]
      cases hhex : hexDecode txNs.txID with
      | none => rw [hhex] at h; exact absurd h (by simp)
      | some txIDBytes =>
        rw [hhex] at h
        have htr := ih _ _ db' cache' h
        have hop := (insertTransaction_frame db txNs.blockNum txNs.txNum
          txIDBytes txNs.validationCode).2.2.2.2.2.2.2
        rw [htr, hop]
        have hkeys : (((txNs.blockNum, txNs.txNum),
            (db.insertTransaction txNs.blockNum txNs.txNum txIDBytes
              txNs.validationCode).1) :: cache).map Prod.fst
            = (txNs.blockNum, txNs.txNum) :: cache.map Prod.fst := rfl
        rw [hkeys]
        simp [List.replicate_succ, List.append_assoc]

/-- C7: inside the store transaction the writer issues, in order: the block
insert, one transaction insert per unique `(block_num, tx_index)`, one
tx_namespace insert per record, all reads, all endorsements, all
namespace-policy upserts (those with a non-empty payload), and finally all
writes; the parent statements carry the conflict behavior of §4.3 — block:
no-op, transaction: update tx_id and return the existing id, tx_namespace:
update ns_version and return the existing id, policy: overwrite keeping the
row count. -/
theorem write_statement_order :
    (∀ (db : DB) (pb : ProcessedBlock) (P : ParsedBlockData) (db' : DB),
      pb.data = BlockPayload.parsed P →
      WriteProcessedBlock db (some pb) = Except.ok db' →
      db'.trace = db.trace
        ++ [Stmt.insertBlock]
        ++ List.replicate (countNewTxKeys [] P.txNamespaces) Stmt.insertTransaction
        ++ List.replicate P.txNamespaces.length Stmt.insertTxNamespace
        ++ List.replicate P.reads.length Stmt.insertTxRead
        ++ List.replicate P.endorsements.length Stmt.insertTxEndorsement
        ++ List.replicate (P.policies.countP (fun p => !(p.policyJSON.length == 0)))
            Stmt.upsertNamespacePolicy
        ++ List.replicate P.writes.length Stmt.insertTxWrite)
    ∧ (∀ (db : DB) (bn tc : Nat) (ph dh : List Nat), hasBlock db bn = true →
        (db.insertBlock bn tc ph dh).blocks = db.blocks)
    ∧ (∀ (db : DB) (bn tn : Nat) (txID : List Nat) (vc : Int) (r : TransactionRow),
        findTx db bn tn = some r →
        (db.insertTransaction bn tn txID vc).1 = r.id
        ∧ (db.insertTransaction bn tn txID vc).2.transactions.length
            = db.transactions.length)
    ∧ (∀ (db : DB) (tid : Nat) (ns : String) (ver : Nat) (r : TxNamespaceRow),
        findTxNs db tid ns = some r →
        (db.insertTxNamespace tid ns ver).1 = r.id
        ∧ (db.insertTxNamespace tid ns ver).2.txNamespaces.length
            = db.txNamespaces.length)
    ∧ (∀ (db : DB) (ns : String) (ver : Nat) (pol : String),
        (findPolicy db ns ver).isSome = true →
        (db.upsertNamespacePolicy ns ver pol).namespacePolicies.length
          = db.namespacePolicies.length) := by
  refine ⟨?_, ?_, ?_, ?_, ?_⟩
  · intro db pb P db' hdata h1
    unfold WriteProcessedBlock at h1
    simp only [] at h1
    rw [hdata] at h1
    simp only [] at h1
    cases hloop : insertTransactionsLoop
        (db.insertBlock pb.blockInfo.number pb.txns pb.blockInfo.previousHash
          pb.blockInfo.dataHash) [] P.txNamespaces with
    | error msg => rw [hloop] at h1; exact absurd h1 (by simp)
    | ok pr =>
      obtain ⟨dbB, cache1⟩ := pr
      rw [hloop] at h1
      simp only [] at h1
      obtain rfl := (Except.ok.inj h1).symm
      clear h1
      set dbA := db.insertBlock pb.blockInfo.number pb.txns pb.blockInfo.previousHash
        pb.blockInfo.dataHash with hdbA
      set prod1 := insertTxNamespacesLoop dbB cache1 [] P.txNamespaces with hprod1
      set dbD := insertReadsLoop prod1.1 prod1.2 P.reads with hdbD
      set dbE := insertEndorsementsLoop dbD prod1.2 P.endorsements with hdbE
      set dbF := upsertPoliciesLoop dbE P.policies with hdbF
      have hA := (insertBlock_frame db pb.blockInfo.number pb.txns
        pb.blockInfo.previousHash pb.blockInfo.dataHash).2.2.2.2.2.2.2.2
      rw [← hdbA] at hA
      have hB := txLoop_trace P.txNamespaces dbA [] dbB cache1 hloop
      have hC := (insertTxNamespacesLoop_frame cache1 P.txNamespaces dbB []).2.2.2.2.2.2.2
      rw [← hprod1] at hC
      have hD := (insertReadsLoop_spec prod1.2 P.reads prod1.1).2.2.2.2.2.2.2.2.2
      rw [← hdbD] at hD
      have hE :=
        (insertEndorsementsLoop_spec prod1.2 P.endorsements dbD).2.2.2.2.2.2.2.2.2
      rw [← hdbE] at hE
      have hF := (upsertPoliciesLoop_frame P.policies dbE).2.2.2.2.2.2.2.2
      rw [← hdbF] at hF
      have hG := (insertWritesLoop_spec prod1.2 P.writes dbF).2.2.2.2.2.2.2.2.2
      rw [hG, hF, hE, hD, hC, hB, hA]
      have hkeys : (([] : List ((Nat × Nat) × Nat)).map Prod.fst) = [] := rfl
      rw [hkeys]
  · intro db bn tc ph dh h
    exact (insertBlock_blocks db bn tc ph dh).2.1 h
  · intro db bn tn txID vc r h
    exact (insertTransaction_conflict db bn tn txID vc).1 r h
  · intro db tid ns ver r h
    exact (insertTxNamespace_conflict db tid ns ver).1 r h
  · intro db ns ver pol h
    exact (upsertNamespacePolicy_conflict db ns ver pol).1 h

/-- Parsed payload exercising every statement kind, for the C7 witness. -/
def parsedOrderExample : ParsedBlockData :=
  { txNamespaces := [{ blockNum := 9, txNum := 0, txID := "cd", nsID := "occ",
                       nsVersion := 1, validationCode := 1 }],
    reads := [{ blockNum := 9, txNum := 0, nsID := "occ", key := "rk",
                version := none, isReadWrite := false }],
    writes := [{ nsName := "occ", key := "wk", blockNum := 9, txNum := 0,
                 value := [5], txID := "cd", validationCode := 1,
                 isBlindWrite := true, readVersion := none }],
    endorsements := [{ blockNum := 9, txNum := 0, nsID := "occ",
                       endorsement := [6], mspID := none, identity := none }],
    policies := [{ nsName := "occ", version := 1, policyJSON := policyToJSON [5] }] }

/-- The block carrying `parsedOrderExample`. -/
def pbOrderExample : ProcessedBlock :=
  { number := 9, txns := 1,
    blockInfo := { number := 9, previousHash := [7], dataHash := [8] },
    data := BlockPayload.parsed parsedOrderExample }

/-- Witness for C7 at the concrete block. -/
theorem write_statement_order_witness :
    WriteProcessedBlock emptyDB (some pbOrderExample)
      = Except.ok (runWrite emptyDB (some pbOrderExample))
    ∧ (runWrite emptyDB (some pbOrderExample)).trace
        = emptyDB.trace
          ++ [Stmt.insertBlock]
          ++ List.replicate (countNewTxKeys [] parsedOrderExample.txNamespaces)
              Stmt.insertTransaction
          ++ List.replicate parsedOrderExample.txNamespaces.length Stmt.insertTxNamespace
          ++ List.replicate parsedOrderExample.reads.length Stmt.insertTxRead
          ++ List.replicate parsedOrderExample.endorsements.length Stmt.insertTxEndorsement
          ++ List.replicate
              (parsedOrderExample.policies.countP (fun p => !(p.policyJSON.length == 0)))
              Stmt.upsertNamespacePolicy
          ++ List.replicate parsedOrderExample.writes.length Stmt.insertTxWrite :=
  ⟨by rfl,
    write_statement_order.1 emptyDB pbOrderExample parsedOrderExample
      (runWrite emptyDB (some pbOrderExample)) rfl (by rfl)⟩
